import Mathlib

/-!
Verification development for the soft_matrix stereo-to-surround upmixer.

The definitions below are shallow embeddings of the Rust sources:
  * `window_sizes.rs`  — the window-size lookup table and `get_ideal_window_size`
  * `matrix.rs`        — `FrequencyPans`, `DefaultMatrix`, `steer`, `phase_shift`,
                         `bring_phase_in_range`
  * `reader.rs`        — the per-bin solo-spike phase copy in
                         `read_transform_and_measure_pans`
  * `panning_averager.rs` — `PanningAverager::new` and `enqueue_and_average`
  * `panner_and_writer.rs` — the per-bin steering loop, the LFE filter loop and
                         the output-index bookkeeping of
                         `perform_backwards_transform_and_write_samples`
  * `options.rs`       — `Options::parse`

32-bit floats are modelled as exact rationals; the f32 constants `PI`, `TAU`
and `PI / 2` are embedded by their exact f32 values.
-/

namespace SoftMatrix

/-! ## window_sizes.rs -/

/-- The `WINDOW_SIZES` table from `window_sizes.rs` (61 entries, ascending). -/
def WINDOW_SIZES : List Nat :=
  [6,12,18,24,36,48,54,72,96,108,144,162,192,216,288,324,384,432,486,576,648,
   768,864,972,1152,1296,1458,1536,1728,1944,2304,2592,2916,3072,3456,3888,
   4374,4608,5184,5832,6144,6912,7776,8748,9216,10368,11664,12288,13122,13824,
   15552,17496,18432,20736,23328,24576,26244,27648,31104,34992,36864]

/-- `get_ideal_window_size` from `window_sizes.rs`: returns the first table
entry that is `≥ min_window_size`; the `Err(NotFound)` branch is `none`. -/
def get_ideal_window_size (min_window_size : Nat) : Option Nat :=
  WINDOW_SIZES.find? (fun window_size => decide (min_window_size ≤ window_size))

/-- `v` is of the form `2^a * 3^b` with both exponents at least 1 (the shape of
every entry generated by the C# program quoted in `window_sizes.rs`). -/
def isPow23 (v : Nat) : Prop := ∃ a b : Nat, 1 ≤ a ∧ 1 ≤ b ∧ v = 2 ^ a * 3 ^ b

/-! ## matrix.rs -/

/-- The exact value of the f32 constant `std::f32::consts::PI`. -/
def PI32 : ℚ := 13176795 / 4194304

/-- The exact value of the f32 constant `std::f32::consts::TAU`
(which equals twice the f32 `PI`). -/
def TAU32 : ℚ := 2 * PI32

/-- `HALF_PI` from `matrix.rs` (`PI / 2.0`, exact in f32). -/
def HALF_PI32 : ℚ := PI32 / 2

/-- The exact f32 value of the literal `0.707106781186548`
(`CENTER_AMPLITUDE_ADJUSTMENT` in `matrix.rs`). -/
def CENTER_AMPLITUDE_ADJUSTMENT : ℚ := 11863283 / 16777216

/-- `FrequencyPans` from `matrix.rs` (the revision used by `DefaultMatrix`,
with all three fields). -/
structure FrequencyPans where
  amplitude : ℚ
  left_to_right : ℚ
  back_to_front : ℚ
  deriving DecidableEq, Inhabited

/-- `DefaultMatrix` from `matrix.rs`. -/
structure DefaultMatrix where
  widen_factor : ℚ
  left_rear_shift : ℚ
  right_rear_shift : ℚ
  rear_adjustment : ℚ

/-- `DefaultMatrix::new()`. Constructors whose constants involve f32 values of
irrational literals (`qs`, `dolby_stereo`) are not needed by any claim and are
not embedded. -/
def DefaultMatrix.new : DefaultMatrix :=
  { widen_factor := 1
    left_rear_shift := -(1/2) * PI32
    right_rear_shift := (1/2) * PI32
    rear_adjustment := 1 }

/-- `DefaultMatrix::horseshoe()`. -/
def DefaultMatrix.horseshoe : DefaultMatrix :=
  { widen_factor := 2
    left_rear_shift := -(1/2) * PI32
    right_rear_shift := (1/2) * PI32
    rear_adjustment := 1 }

/-- The phase-difference contribution computed at the start of
`DefaultMatrix::steer` (`matrix.rs` lines 100–112). -/
def back_to_front_from_phase (left_phase right_phase : ℚ) : ℚ :=
  let phase_difference_tau := |left_phase - right_phase|
  let phase_difference_pi :=
    if phase_difference_tau > PI32 then PI32 - (TAU32 - phase_difference_tau)
    else phase_difference_tau
  phase_difference_pi / PI32

/-- `DefaultMatrix::steer` from `matrix.rs` (lines 93–153). -/
def DefaultMatrix.steer (m : DefaultMatrix)
    (left_amplitude left_phase right_amplitude right_phase : ℚ) : FrequencyPans :=
  let btf_phase := back_to_front_from_phase left_phase right_phase
  let amplitude_sum := left_amplitude + right_amplitude
  if amplitude_sum = 0 then
    { amplitude := amplitude_sum, left_to_right := 0, back_to_front := 0 }
  else
    let left_to_right0 := (left_amplitude / amplitude_sum) * (-2) + 1
    let left_to_right1 := left_to_right0 * m.widen_factor
    let fraction_in_side := |left_to_right1|
    let fraction_in_center := 1 - fraction_in_side
    let back_to_front_from_panning := max (|left_to_right1| - 1) 0
    let back_to_front := min (back_to_front_from_panning + btf_phase) 1
    let front_to_back := 1 - back_to_front
    let amplitude_front :=
      ((fraction_in_side * amplitude_sum) +
        (fraction_in_center * amplitude_sum * CENTER_AMPLITUDE_ADJUSTMENT))
        * front_to_back
    let amplitude_back := amplitude_sum * back_to_front * m.rear_adjustment
    let left_to_right2 := max (min left_to_right1 1) (-1)
    { amplitude := amplitude_back + amplitude_front
      left_to_right := left_to_right2
      back_to_front := back_to_front }

/-- `bring_phase_in_range` from `matrix.rs` (lines 552–558). -/
def bring_phase_in_range (phase : ℚ) : ℚ :=
  if phase > PI32 then phase - TAU32
  else if phase < -PI32 then phase + TAU32
  else phase

/-- `shift_in_place` from `matrix.rs` (lines 547–550). -/
def shift_in_place (phase shift : ℚ) : ℚ :=
  bring_phase_in_range (phase + shift)

/-- `DefaultMatrix::phase_shift` from `matrix.rs` (lines 155–164); the four
phases are returned as `(left_front, right_front, left_rear, right_rear)`. -/
def DefaultMatrix.phase_shift (m : DefaultMatrix)
    (left_front_phase right_front_phase left_rear_phase right_rear_phase : ℚ) :
    ℚ × ℚ × ℚ × ℚ :=
  (left_front_phase, right_front_phase,
   shift_in_place left_rear_phase m.left_rear_shift,
   shift_in_place right_rear_phase m.right_rear_shift)

/-! ## reader.rs: the solo-spike phase copy -/

/-- The solo-spike suppression in `read_transform_and_measure_pans`
(`reader.rs` lines 123–131): returns the adjusted `(left_phase, right_phase)`. -/
def solo_spike_phases (minimum_steered_amplitude left_amplitude left_phase
    right_amplitude right_phase : ℚ) : ℚ × ℚ :=
  if left_amplitude < minimum_steered_amplitude ∧
      minimum_steered_amplitude ≤ right_amplitude then
    (right_phase, right_phase)
  else if minimum_steered_amplitude ≤ left_amplitude ∧
      right_amplitude < minimum_steered_amplitude then
    (left_phase, left_phase)
  else
    (left_phase, right_phase)

/-- One bin of the Reader's pan measurement: solo-spike phase copy followed by
`steer` (`reader.rs` lines 118–144). -/
def read_measure_pans_bin (m : DefaultMatrix) (minimum_steered_amplitude
    left_amplitude left_phase right_amplitude right_phase : ℚ) : FrequencyPans :=
  let phases := solo_spike_phases minimum_steered_amplitude
    left_amplitude left_phase right_amplitude right_phase
  m.steer left_amplitude phases.1 right_amplitude phases.2

/-! ## panner_and_writer.rs: per-bin front/rear amplitude split -/

/-- The per-bin amplitude split in
`perform_backwards_transform_and_write_samples` (`panner_and_writer.rs`
lines 179–185): returns
`(left_front, right_front, left_rear, right_rear)` amplitudes. -/
def panner_front_rear_amplitudes (left_amplitude right_amplitude : ℚ)
    (pans : FrequencyPans) : ℚ × ℚ × ℚ × ℚ :=
  let back_to_front := pans.back_to_front
  let front_to_back := 1 - back_to_front
  (left_amplitude * front_to_back, right_amplitude * front_to_back,
   left_amplitude * back_to_front, right_amplitude * back_to_front)

/-! ## panning_averager.rs -/

/-- `TransformedWindowAndPans` (`structs.rs`): the spectra payload type is a
parameter because the Panning Averager moves the payloads without inspecting
them. -/
structure TransformedWindowAndPans (α : Type) where
  last_sample_ctr : ℕ
  left_transformed : Option α
  right_transformed : Option α
  mono_transformed : Option α
  frequency_pans : List FrequencyPans
  deriving DecidableEq

instance {α : Type} : Inhabited (TransformedWindowAndPans α) :=
  ⟨⟨0, none, none, none, []⟩⟩

/-- The `window_size` / `window_midpoint` / `total_samples_to_write` trio held
by the `Upmixer` and read by every stage. -/
structure UpmixerCfg where
  window_size : ℕ
  total_samples_to_write : ℕ
  deriving DecidableEq

def UpmixerCfg.window_midpoint (cfg : UpmixerCfg) : ℕ := cfg.window_size / 2

/-- `EnqueueAndAverageState` from `panning_averager.rs` (the queue is the
`VecDeque`, front first). -/
structure EnqueueAndAverageState (α : Type) where
  average_last_sample_ctr_lower_bounds : List ℕ
  average_last_sample_ctr_upper_bounds : List ℕ
  pan_fraction_per_frequencys : List ℚ
  next_last_sample_ctr_to_enqueue : ℕ
  transformed_window_and_pans_queue : List (TransformedWindowAndPans α)
  pan_averages : List FrequencyPans
  deriving DecidableEq

/-- `PanningAverager::new` (`panning_averager.rs` lines 30–67): the three
precomputed vectors, an empty queue and `next = window_size - 1`. -/
def PanningAverager.new (α : Type) (window_size : ℕ) : EnqueueAndAverageState α :=
  let window_midpoint := window_size / 2
  { average_last_sample_ctr_lower_bounds :=
      (List.range window_midpoint).map (fun sub_freq_ctr =>
        let transform_index := sub_freq_ctr + 1
        let wavelength := window_size / transform_index
        (window_size - wavelength) / 2)
    average_last_sample_ctr_upper_bounds :=
      (List.range window_midpoint).map (fun sub_freq_ctr =>
        let transform_index := sub_freq_ctr + 1
        let wavelength := window_size / transform_index
        (window_size - wavelength) / 2 + wavelength - 1)
    pan_fraction_per_frequencys :=
      (List.range window_midpoint).map (fun sub_freq_ctr =>
        let transform_index := sub_freq_ctr + 1
        let wavelength := window_size / transform_index
        (1 : ℚ) / (wavelength : ℚ))
    next_last_sample_ctr_to_enqueue := window_size - 1
    transformed_window_and_pans_queue := []
    pan_averages := [] }

/-- The steering vector of queue position `i`, bin `freq_ctr` (out-of-range
indices give the `Inhabited` default; reachable states never index out of
range). -/
def queuePanAt {α : Type} (s : EnqueueAndAverageState α) (i freq_ctr : ℕ) :
    FrequencyPans :=
  ((s.transformed_window_and_pans_queue.getD i default).frequency_pans.getD
    freq_ctr default)

/-- The `Add newly-added pans (in the queue) to the averages` loop
(`panning_averager.rs` lines 215–226).  Only `back_to_front` is adjusted, as
in the source.  The Rust loop runs over `0..window_midpoint`; `pan_averages`
has length `window_midpoint` whenever it is non-empty, so mapping over
`pan_averages` is the same loop. -/
def addUpperContribution {α : Type} (s : EnqueueAndAverageState α) :
    EnqueueAndAverageState α :=
  { s with pan_averages := s.pan_averages.mapIdx (fun freq_ctr p =>
      let sample_ctr := s.average_last_sample_ctr_upper_bounds.getD freq_ctr 0
      let adjust_back_to_front := (queuePanAt s sample_ctr freq_ctr).back_to_front
        * s.pan_fraction_per_frequencys.getD freq_ctr 0
      { p with back_to_front := p.back_to_front + adjust_back_to_front }) }

/-- The `Remove the unneeded pans` loop (`panning_averager.rs` lines 257–268).
Again only `back_to_front` is adjusted, as in the source. -/
def subLowerContribution {α : Type} (s : EnqueueAndAverageState α) :
    EnqueueAndAverageState α :=
  { s with pan_averages := s.pan_averages.mapIdx (fun freq_ctr p =>
      let sample_ctr := s.average_last_sample_ctr_lower_bounds.getD freq_ctr 0
      let adjust_back_to_front := (queuePanAt s sample_ctr freq_ctr).back_to_front
        * s.pan_fraction_per_frequencys.getD freq_ctr 0
      { p with back_to_front := p.back_to_front - adjust_back_to_front }) }

/-- `Option::take` on all three spectra of a record, as happens to the queue
entry when its spectra are moved into the emitted record
(`panning_averager.rs` lines 242–244). -/
def takeTransforms {α : Type} (r : TransformedWindowAndPans α) :
    TransformedWindowAndPans α :=
  { r with left_transformed := none, right_transformed := none,
           mono_transformed := none }

/-- The `while … >= window_size` averaging loop of `enqueue_and_average`
(`panning_averager.rs` lines 210–274), with explicit fuel (each iteration pops
one queue entry, so `queue.length + 1` fuel always suffices).  Returns the
final state together with the records handed to
`PannerAndWriter::enqueue`, in order. -/
def averageLoop {α : Type} (cfg : UpmixerCfg) :
    ℕ → EnqueueAndAverageState α →
    EnqueueAndAverageState α × List (TransformedWindowAndPans α)
  | 0, s => (s, [])
  | fuel + 1, s =>
    if cfg.window_size ≤ s.transformed_window_and_pans_queue.length then
      let s1 := addUpperContribution s
      let r := s1.transformed_window_and_pans_queue.getD cfg.window_midpoint
        default
      let emitted : TransformedWindowAndPans α :=
        { last_sample_ctr := r.last_sample_ctr
          left_transformed := r.left_transformed
          right_transformed := r.right_transformed
          mono_transformed := r.mono_transformed
          frequency_pans := s1.pan_averages }
      let s2 := { s1 with transformed_window_and_pans_queue :=
        (s1.transformed_window_and_pans_queue.set cfg.window_midpoint
          (takeTransforms r)) }
      if r.last_sample_ctr = cfg.total_samples_to_write - 1 then
        ({ s2 with transformed_window_and_pans_queue := [] }, [emitted])
      else
        let s3 := subLowerContribution s2
        let s4 := { s3 with transformed_window_and_pans_queue :=
          s3.transformed_window_and_pans_queue.tail }
        let next := averageLoop cfg fuel s4
        (next.1, emitted :: next.2)
    else (s, [])

/-- The `Special case: Pre-seed averages` block (`panning_averager.rs` lines
163–195): for each bin, sum `pan * fraction` over queue positions
`lower..(upper - 1)` (a half-open Rust range, so positions
`lower, …, upper - 2`).  The revision of `FrequencyPans` constructed here has
no meaningful amplitude; it is recorded as `0`. -/
def preSeedAverages {α : Type} (cfg : UpmixerCfg) (s : EnqueueAndAverageState α) :
    List FrequencyPans :=
  (List.range cfg.window_midpoint).map (fun freq_ctr =>
    let lower := s.average_last_sample_ctr_lower_bounds.getD freq_ctr 0
    let upper := s.average_last_sample_ctr_upper_bounds.getD freq_ctr 0
    let fraction_per_frequency := s.pan_fraction_per_frequencys.getD freq_ctr 0
    let positions := List.range' lower (upper - 1 - lower)
    { amplitude := 0
      left_to_right := (positions.map (fun sample_ctr =>
        (queuePanAt s sample_ctr freq_ctr).left_to_right
          * fraction_per_frequency)).sum
      back_to_front := (positions.map (fun sample_ctr =>
        (queuePanAt s sample_ctr freq_ctr).back_to_front
          * fraction_per_frequency)).sum })

/-- One in-order arrival processed by `enqueue_and_average`
(`panning_averager.rs` lines 85–275): the record with
`last_sample_ctr = next_last_sample_ctr_to_enqueue` is drained from the
staging map, the three special cases are applied, and the averaging loop
runs.  (In a run the staging map serialises arrivals, so the drain loop
processes exactly the records in counter order; feeding them one at a time is
the same computation.) -/
def enqueueAndAverageStep {α : Type} (cfg : UpmixerCfg)
    (s : EnqueueAndAverageState α) (rec : TransformedWindowAndPans α) :
    EnqueueAndAverageState α × List (TransformedWindowAndPans α) :=
  -- Special case: First transform (lines 106–129)
  let warm : List (TransformedWindowAndPans α) :=
    if s.next_last_sample_ctr_to_enqueue = cfg.window_size - 1 then
      List.replicate
        (cfg.window_midpoint - 1 - s.transformed_window_and_pans_queue.length)
        ⟨0, none, none, none, rec.frequency_pans⟩
    else []
  -- Special case: Last transform (lines 131–157) plus the unconditional push
  -- (lines 159–161)
  let pushed : List (TransformedWindowAndPans α) :=
    if s.next_last_sample_ctr_to_enqueue = cfg.total_samples_to_write - 1 then
      (List.range (cfg.window_midpoint + 1)).map (fun j =>
        if j = 0 then rec
        else ⟨rec.last_sample_ctr + j, none, none, none, rec.frequency_pans⟩)
    else [rec]
  let s1 := { s with transformed_window_and_pans_queue :=
    s.transformed_window_and_pans_queue ++ warm ++ pushed }
  -- Special case: Pre-seed averages (lines 163–195)
  let s2 :=
    if s.next_last_sample_ctr_to_enqueue
        = cfg.window_size + cfg.window_midpoint then
      { s1 with pan_averages := preSeedAverages cfg s1 }
    else s1
  let s3 := { s2 with next_last_sample_ctr_to_enqueue :=
    s2.next_last_sample_ctr_to_enqueue + 1 }
  -- Guard against no averaging (lines 204–207)
  if s3.pan_averages.isEmpty then (s3, [])
  else averageLoop cfg (s3.transformed_window_and_pans_queue.length + 1) s3

/-- Feed a list of in-order Reader records through the averager, collecting
everything handed to the Panner & Writer. -/
def feedRecords {α : Type} (cfg : UpmixerCfg) :
    EnqueueAndAverageState α → List (TransformedWindowAndPans α) →
    EnqueueAndAverageState α × List (TransformedWindowAndPans α)
  | s, [] => (s, [])
  | s, r :: rs =>
    let step := enqueueAndAverageStep cfg s r
    let rest := feedRecords cfg step.1 rs
    (rest.1, step.2 ++ rest.2)

/-- The record produced by `read_transform_and_measure_pans` for window
counter `c`: both front spectra are always `Some` (`reader.rs` lines
146–152). -/
def readerRecord {α : Type} (pans : ℕ → List FrequencyPans) (pl pr : ℕ → α)
    (pm : ℕ → Option α) (c : ℕ) : TransformedWindowAndPans α :=
  ⟨c, some (pl c), some (pr c), pm c, pans c⟩

/-- A complete sequential run of the Reader → Averager pipeline: the Reader
produces records with counters `window_size - 1, …, total_samples_to_write - 1`
(`reader.rs` lines 58–77), each is enqueued and averaged in order.  Returns
the final averager state and the full list of records handed to the
Panner & Writer. -/
def runAverager {α : Type} (cfg : UpmixerCfg) (pans : ℕ → List FrequencyPans)
    (pl pr : ℕ → α) (pm : ℕ → Option α) :
    EnqueueAndAverageState α × List (TransformedWindowAndPans α) :=
  feedRecords cfg (PanningAverager.new α cfg.window_size)
    ((List.range' (cfg.window_size - 1)
      (cfg.total_samples_to_write - (cfg.window_size - 1))).map
      (readerRecord pans pl pr pm))

/-- The prefix of the run after only the first `n` Reader records. -/
def runAveragerSteps {α : Type} (cfg : UpmixerCfg)
    (pans : ℕ → List FrequencyPans) (pl pr : ℕ → α) (pm : ℕ → Option α)
    (n : ℕ) : EnqueueAndAverageState α × List (TransformedWindowAndPans α) :=
  feedRecords cfg (PanningAverager.new α cfg.window_size)
    ((List.range' (cfg.window_size - 1) n).map (readerRecord pans pl pr pm))

/-! ## panner_and_writer.rs: output-index bookkeeping -/

/-- `LFE_START` from `panner_and_writer.rs`. -/
def LFE_START : ℚ := 40

/-- `LFE_FULL` from `panner_and_writer.rs`. -/
def LFE_FULL : ℚ := 20

/-- The absolute sample indices written for one dequeued record by
`perform_backwards_transform_and_write_samples` (`panner_and_writer.rs` lines
293–344): the first emitting record writes indices `0..window_midpoint`, the
record with the last counter writes the upper half of its window, every other
record writes its midpoint sample. -/
def written_sample_indices {α : Type} (cfg : UpmixerCfg)
    (rec : TransformedWindowAndPans α) : List ℕ :=
  let sample_ctr := rec.last_sample_ctr - cfg.window_midpoint
  if sample_ctr = cfg.window_midpoint then
    List.range sample_ctr
  else if rec.last_sample_ctr = cfg.total_samples_to_write - 1 then
    let first_sample_in_transform :=
      cfg.total_samples_to_write - cfg.window_size
    (List.range' cfg.window_midpoint (cfg.window_size - cfg.window_midpoint)).map
      (fun sample_in_transform => first_sample_in_transform + sample_in_transform)
  else [sample_ctr]

/-- The full sequence of absolute sample indices written to the sink over a
sequential run of the pipeline. -/
def pipeline_written_indices {α : Type} (cfg : UpmixerCfg)
    (pans : ℕ → List FrequencyPans) (pl pr : ℕ → α) (pm : ℕ → Option α) :
    List ℕ :=
  ((runAverager cfg pans pl pr pm).2).flatMap (written_sample_indices cfg)

/-! ## Closed forms of the averager's reachable states

The sequential run visits a very regular family of states: the queue always
consists of consecutive entries of one conceptual item sequence — warm-start
placeholders, then Reader records (whose spectra are gone once they have been
emitted), then tail placeholders.  `avgItemAt E i` is the `i`-th item of that
sequence after `E` emissions. -/

/-- The `i`-th item of the conceptual enqueue sequence, after `E` records have
been emitted (emission `j` takes the spectra out of item `window_midpoint + j`). -/
def avgItemAt {α : Type} (cfg : UpmixerCfg) (pans : ℕ → List FrequencyPans)
    (pl pr : ℕ → α) (pm : ℕ → Option α) (E i : ℕ) :
    TransformedWindowAndPans α :=
  if i < cfg.window_midpoint - 1 then
    ⟨0, none, none, none, pans (cfg.window_size - 1)⟩
  else if i + cfg.window_midpoint < cfg.total_samples_to_write then
    (if cfg.window_midpoint ≤ i ∧ i < cfg.window_midpoint + E then
      ⟨i + cfg.window_midpoint, none, none, none, pans (i + cfg.window_midpoint)⟩
    else readerRecord pans pl pr pm (i + cfg.window_midpoint))
  else
    ⟨i + cfg.window_midpoint, none, none, none,
      pans (cfg.total_samples_to_write - 1)⟩

/-- The queue holding items `p, …, p + L - 1` after `E` emissions. -/
def avgQueue {α : Type} (cfg : UpmixerCfg) (pans : ℕ → List FrequencyPans)
    (pl pr : ℕ → α) (pm : ℕ → Option α) (E p L : ℕ) :
    List (TransformedWindowAndPans α) :=
  (List.range' p L).map (avgItemAt cfg pans pl pr pm E)

/-- A reachable averager state: the precomputed bounds of
`PanningAverager::new`, a queue of consecutive conceptual items, and a given
counter and averages vector. -/
def avgState {α : Type} (cfg : UpmixerCfg) (pans : ℕ → List FrequencyPans)
    (pl pr : ℕ → α) (pm : ℕ → Option α) (E p L nxt : ℕ)
    (A : List FrequencyPans) : EnqueueAndAverageState α :=
  { PanningAverager.new α cfg.window_size with
    next_last_sample_ctr_to_enqueue := nxt
    transformed_window_and_pans_queue := avgQueue cfg pans pl pr pm E p L
    pan_averages := A }

/-- Every record the Panner & Writer dequeues carries both front spectra and a
Reader counter (never a placeholder). -/
def GoodEmission {α : Type} (cfg : UpmixerCfg)
    (r : TransformedWindowAndPans α) : Prop :=
  r.left_transformed.isSome ∧ r.right_transformed.isSome ∧
    cfg.window_size ≤ r.last_sample_ctr ∧
    r.last_sample_ctr ≤ cfg.total_samples_to_write - 1

/-! ## panner_and_writer.rs: the per-bin steering loop and the LFE filter

Spectra are embedded as functions `ℕ → ℚ × ℚ` (index ↦ complex bin).  The
polar conversions `to_polar` / `from_polar` involve transcendental functions,
so the loop is parameterised over an arbitrary pair of functions
`toPolar : ℚ × ℚ → ℚ × ℚ` (bin ↦ (amplitude, phase)) and
`fromPolar : ℚ × ℚ → ℚ × ℚ` ((amplitude, phase) ↦ bin); the Hermitian-symmetry
bookkeeping is independent of them. -/

/-- `Complex { re: c.re, im: -1.0 * c.im }`, the conjugation written out at
every mirror assignment in `panner_and_writer.rs`. -/
def conjBin (c : ℚ × ℚ) : ℚ × ℚ := (c.1, -1 * c.2)

/-- Write one bin of a spectrum. -/
def setBin (f : ℕ → ℚ × ℚ) (i : ℕ) (v : ℚ × ℚ) : ℕ → ℚ × ℚ :=
  fun j => if j = i then v else f j

/-- The five output spectra manipulated by the steering loop. -/
structure PannerArrays where
  left_front : ℕ → ℚ × ℚ
  right_front : ℕ → ℚ × ℚ
  left_rear : ℕ → ℚ × ℚ
  right_rear : ℕ → ℚ × ℚ
  center : Option (ℕ → ℚ × ℚ)

/-- One iteration (`freq_ctr`) of the `Steer each frequency` loop
(`panner_and_writer.rs` lines 161–248). -/
def steer_bin (cfg : UpmixerCfg) (m : DefaultMatrix)
    (toPolar fromPolar : ℚ × ℚ → ℚ × ℚ) (pans : ℕ → FrequencyPans)
    (a : PannerArrays) (freq_ctr : ℕ) : PannerArrays :=
  let lp := toPolar (a.left_front freq_ctr)
  let left_amplitude := lp.1
  let left_front_phase := lp.2
  let rp := toPolar (a.right_front freq_ctr)
  let right_amplitude := rp.1
  let right_front_phase := rp.2
  let left_rear_phase := left_front_phase
  let right_rear_phase := right_front_phase
  let frequency_pans := pans (freq_ctr - 1)
  let left_to_right := frequency_pans.left_to_right
  let back_to_front := frequency_pans.back_to_front
  let front_to_back := 1 - back_to_front
  let left_front_amplitude := left_amplitude * front_to_back
  let right_front_amplitude := right_amplitude * front_to_back
  let left_rear_amplitude := left_amplitude * back_to_front
  let right_rear_amplitude := right_amplitude * back_to_front
  -- Steer center (lines 187–212); also yields the front amplitudes after the
  -- center subtraction
  let centerStep : Option (ℕ → ℚ × ℚ) × ℚ × ℚ :=
    match a.center with
    | some center =>
      let phase := (toPolar (center freq_ctr)).2
      let center_amplitude :=
        (1 - |left_to_right|) * (left_front_amplitude + right_front_amplitude)
      let c := fromPolar (center_amplitude, phase)
      let center1 := setBin center freq_ctr c
      let center2 :=
        if freq_ctr < cfg.window_midpoint then
          setBin center1 (cfg.window_size - freq_ctr) (conjBin c)
        else center1
      (some center2, max 0 (left_front_amplitude - center_amplitude),
        max 0 (right_front_amplitude - center_amplitude))
    | none => (none, left_front_amplitude, right_front_amplitude)
  let center := centerStep.1
  let left_front_amplitude := centerStep.2.1
  let right_front_amplitude := centerStep.2.2
  -- Phase shifts (lines 214–220)
  let phases := m.phase_shift left_front_phase right_front_phase
    left_rear_phase right_rear_phase
  -- Assign to array (lines 222–227)
  let lf := setBin a.left_front freq_ctr (fromPolar (left_front_amplitude, phases.1))
  let rf := setBin a.right_front freq_ctr
    (fromPolar (right_front_amplitude, phases.2.1))
  let lr := setBin a.left_rear freq_ctr
    (fromPolar (left_rear_amplitude, phases.2.2.1))
  let rr := setBin a.right_rear freq_ctr
    (fromPolar (right_rear_amplitude, phases.2.2.2))
  -- Mirror to the conjugate bin (lines 229–247)
  if freq_ctr < cfg.window_midpoint then
    let inverse_freq_ctr := cfg.window_size - freq_ctr
    { left_front := setBin lf inverse_freq_ctr (conjBin (lf freq_ctr))
      right_front := setBin rf inverse_freq_ctr (conjBin (rf freq_ctr))
      left_rear := setBin lr inverse_freq_ctr (conjBin (lr freq_ctr))
      right_rear := setBin rr inverse_freq_ctr (conjBin (rr freq_ctr))
      center := center }
  else
    { left_front := lf, right_front := rf, left_rear := lr, right_rear := rr,
      center := center }

/-- The whole steering pass of
`perform_backwards_transform_and_write_samples`: zero bin 0 of the rears
(lines 157–158) and run the `Steer each frequency` loop for
`freq_ctr ∈ 1..(window_midpoint + 1)`. -/
def panner_steer_loop (cfg : UpmixerCfg) (m : DefaultMatrix)
    (toPolar fromPolar : ℚ × ℚ → ℚ × ℚ) (pans : ℕ → FrequencyPans)
    (a0 : PannerArrays) : PannerArrays :=
  let a1 := { a0 with
    left_rear := setBin a0.left_rear 0 (0, 0)
    right_rear := setBin a0.right_rear 0 (0, 0) }
  (List.range' 1 cfg.window_midpoint).foldl
    (steer_bin cfg m toPolar fromPolar pans) a1

/-- The `Filter LFE` loop (`panner_and_writer.rs` lines 270–291), for
`window_ctr ∈ 1..window_midpoint`; the attenuation curve is the precomputed
`lfe_levels` vector, taken as a parameter. -/
def lfe_filter_bin (cfg : UpmixerCfg) (toPolar fromPolar : ℚ × ℚ → ℚ × ℚ)
    (lfe_levels : ℕ → ℚ) (arr : ℕ → ℚ × ℚ) (window_ctr : ℕ) : ℕ → ℚ × ℚ :=
  let ap := toPolar (arr window_ctr)
  let c := fromPolar (ap.1 * lfe_levels window_ctr, ap.2)
  let arr1 := setBin arr window_ctr c
  setBin arr1 (cfg.window_size - window_ctr) (conjBin c)

def lfe_filter_loop (cfg : UpmixerCfg) (toPolar fromPolar : ℚ × ℚ → ℚ × ℚ)
    (lfe_levels : ℕ → ℚ) (lfe : ℕ → ℚ × ℚ) : ℕ → ℚ × ℚ :=
  (List.range' 1 (cfg.window_midpoint - 1)).foldl
    (lfe_filter_bin cfg toPolar fromPolar lfe_levels) lfe

/-! ## options.rs -/

/-- The subset of `wave_stream::wave_header::Channels` that `options.rs`
constructs. -/
structure Channels where
  front_left : Bool
  front_right : Bool
  front_center : Bool
  low_frequency : Bool
  back_left : Bool
  back_right : Bool
  deriving DecidableEq

/-- `ChannelLayout` from `options.rs`. -/
inductive ChannelLayout where
  | Four
  | Five
  | FiveOne
  deriving DecidableEq

/-- `MatrixFormat` from `options.rs`. -/
inductive MatrixFormat where
  | Default
  | RM
  | HorseShoe
  deriving DecidableEq

/-- `Options` from `options.rs`.  The `Box<dyn Matrix>` field is represented
by the `MatrixFormat` it is built from (the claims never inspect the matrix
object). -/
structure Options where
  source_wav_path : String
  target_wav_path : String
  num_threads : Option ℕ
  channel_layout : ChannelLayout
  transform_mono : Bool
  channels : Channels
  low_frequency : ℚ
  matrix_format : MatrixFormat
  deriving DecidableEq

/-- The flag loop of `Options::parse` (`options.rs` lines 67–223).  String
parsing of numbers (`str::parse`, a std-library service) is taken as the pair
of parameters `parse_f32` (as an exact rational) and `parse_usize`. -/
def parseArgsLoop (parse_f32 : String → Option ℚ)
    (parse_usize : String → Option ℕ) (src dst : String) :
    List String → Option ℕ → ChannelLayout → MatrixFormat → ℚ → Option Options
  | [], num_threads, channel_layout, matrix_format, low_frequency =>
    -- No more flags left: interpret the options (lines 160–221)
    let tm_channels : Bool × Channels :=
      match channel_layout with
      | ChannelLayout.Four => (false, ⟨true, true, false, false, true, true⟩)
      | ChannelLayout.Five => (true, ⟨true, true, true, false, true, true⟩)
      | ChannelLayout.FiveOne => (true, ⟨true, true, true, true, true, true⟩)
    -- the LFE / lowest-frequency compatibility check (lines 201–209)
    if LFE_START < low_frequency ∧ tm_channels.2.low_frequency then none
    else
      some { source_wav_path := src
             target_wav_path := dst
             num_threads := num_threads
             channel_layout := channel_layout
             transform_mono := tm_channels.1
             channels := tm_channels.2
             low_frequency := low_frequency
             matrix_format := matrix_format }
  | flag :: rest, num_threads, channel_layout, matrix_format, low_frequency =>
    if flag = "-channels" then
      match rest with
      | [] => none
      | channels_string :: rest2 =>
        if channels_string = "4" then
          parseArgsLoop parse_f32 parse_usize src dst rest2 num_threads
            ChannelLayout.Four matrix_format low_frequency
        else if channels_string = "5" then
          parseArgsLoop parse_f32 parse_usize src dst rest2 num_threads
            ChannelLayout.Five matrix_format low_frequency
        else if channels_string = "5.1" then
          parseArgsLoop parse_f32 parse_usize src dst rest2 num_threads
            ChannelLayout.FiveOne matrix_format low_frequency
        else none
    else if flag = "-matrix" then
      match rest with
      | [] => none
      | matrix_format_string :: rest2 =>
        if matrix_format_string = "default" then
          parseArgsLoop parse_f32 parse_usize src dst rest2 num_threads
            channel_layout MatrixFormat.Default low_frequency
        else if matrix_format_string = "rm" then
          parseArgsLoop parse_f32 parse_usize src dst rest2 num_threads
            channel_layout MatrixFormat.RM low_frequency
        else if matrix_format_string = "horseshoe" then
          parseArgsLoop parse_f32 parse_usize src dst rest2 num_threads
            channel_layout MatrixFormat.HorseShoe low_frequency
        else none
    else if flag = "-low" then
      match rest with
      | [] => none
      | low_frequency_string :: rest2 =>
        match parse_f32 low_frequency_string with
        | some low_frequency_arg =>
          if low_frequency_arg < 1 then none
          else
            parseArgsLoop parse_f32 parse_usize src dst rest2 num_threads
              channel_layout matrix_format low_frequency_arg
        | none => none
    else if flag = "-threads" then
      match rest with
      | [] => none
      | num_threads_string :: rest2 =>
        match parse_usize num_threads_string with
        | some num_threads_value =>
          parseArgsLoop parse_f32 parse_usize src dst rest2
            (some num_threads_value) channel_layout matrix_format low_frequency
        | none => none
    else none

/-- `Options::parse` (`options.rs` lines 38–224) over the full argument vector
(executable name first). -/
def Options.parse (parse_f32 : String → Option ℚ)
    (parse_usize : String → Option ℕ) (args : List String) : Option Options :=
  if args.length < 3 then none
  else
    match args with
    | _executable :: source :: target :: rest =>
      parseArgsLoop parse_f32 parse_usize source target rest none
        ChannelLayout.FiveOne MatrixFormat.Default 20
    | _ => none

/-! ## A concrete small run (window size 6, 15 samples to write)

Used to evaluate the pipeline at explicit inputs: the steering vectors of the
record with counter `c` carry `(c − 5)/10` in both components, so the rolling
averages are easy to compute by hand. -/

def demoCfg : UpmixerCfg := ⟨6, 15⟩

def demoPans : ℕ → List FrequencyPans :=
  fun c => List.replicate 3 ⟨0, ((c : ℚ) - 5) / 10, ((c : ℚ) - 5) / 10⟩

def demoRun : EnqueueAndAverageState Unit × List (TransformedWindowAndPans Unit) :=
  runAverager demoCfg demoPans (fun _ => ()) (fun _ => ()) (fun _ => some ())

def demoWrites : List ℕ :=
  pipeline_written_indices demoCfg demoPans (fun _ => ()) (fun _ => ())
    (fun _ => some ())

/-- Checks that each element of the list is the predecessor plus one (the
contiguity property of §3 of the specification). -/
def contiguousCheck : List ℕ → Bool
  | [] => true
  | [_] => true
  | a :: b :: rest => (b = a + 1) && contiguousCheck (b :: rest)

/-- Checks that the list is strictly increasing. -/
def strictlyIncreasingCheck : List ℕ → Bool
  | [] => true
  | [_] => true
  | a :: b :: rest => (a < b) && strictlyIncreasingCheck (b :: rest)

/-! # Theorems -/

/-! ## C3: window-size lookup -/

/-- Every table entry is of the form `2^a * 3^b`, `a, b ≥ 1`. -/
lemma windowSizes_isPow23 :
    ∀ w ∈ WINDOW_SIZES, ∃ a < 17, ∃ b < 11, 1 ≤ a ∧ 1 ≤ b ∧ w = 2 ^ a * 3 ^ b := by
  decide

/-- Every number of the form `2^a * 3^b` (`a, b ≥ 1`) up to 36864 is a table
entry (stated with the exponent bounds such a number forces). -/
lemma windowSizes_complete_aux :
    ∀ a ∈ List.range 17, ∀ b ∈ List.range 11, 1 ≤ a → 1 ≤ b →
      2 ^ a * 3 ^ b ≤ 36864 → 2 ^ a * 3 ^ b ∈ WINDOW_SIZES := by
  decide

lemma windowSizes_complete {v : Nat} (hv : v ≤ 36864) (h : isPow23 v) :
    v ∈ WINDOW_SIZES := by
  obtain ⟨a, b, ha, hb, rfl⟩ := h
  have h2 : 2 ^ a ≤ 2 ^ a * 3 ^ b :=
    Nat.le_mul_of_pos_right _ (Nat.pos_pow_of_pos b (by norm_num))
  have h3 : 3 ^ b ≤ 2 ^ a * 3 ^ b :=
    Nat.le_mul_of_pos_left _ (Nat.pos_pow_of_pos a (by norm_num))
  have ha17 : a < 17 := by
    by_contra hc
    have h1 : (2 : Nat) ^ 17 ≤ 2 ^ a := Nat.pow_le_pow_right (by norm_num) (by omega)
    have : (2 : Nat) ^ 17 ≤ 36864 := le_trans h1 (le_trans h2 hv)
    norm_num at this
  have hb11 : b < 11 := by
    by_contra hc
    have h1 : (3 : Nat) ^ 11 ≤ 3 ^ b := Nat.pow_le_pow_right (by norm_num) (by omega)
    have : (3 : Nat) ^ 11 ≤ 36864 := le_trans h1 (le_trans h3 hv)
    norm_num at this
  exact windowSizes_complete_aux a (List.mem_range.mpr ha17) b (List.mem_range.mpr hb11)
    ha hb hv

lemma windowSizes_sorted : List.Pairwise (· ≤ ·) WINDOW_SIZES := by decide

lemma windowSizes_le : ∀ w ∈ WINDOW_SIZES, w ≤ 36864 := by decide

/-- On a `≤`-sorted list, `find?` with the predicate `m ≤ ·` returns a minimal
element among those satisfying the predicate. -/
lemma find?_ge_min {m w : Nat} :
    ∀ l : List Nat, List.Pairwise (· ≤ ·) l →
      l.find? (fun x => decide (m ≤ x)) = some w →
      ∀ v ∈ l, m ≤ v → w ≤ v := by
  intro l
  induction l with
  | nil => intro _ h; simp [List.find?] at h
  | cons x xs ih =>
    intro hp hf v hv hmv
    rcases List.pairwise_cons.mp hp with ⟨hx, hxs⟩
    by_cases hmx : m ≤ x
    · have hw : w = x := by
        simp [List.find?, hmx] at hf
        omega
      subst hw
      rcases List.mem_cons.mp hv with h | h
      · omega
      · exact hx v h
    · have hf2 : xs.find? (fun x => decide (m ≤ x)) = some w := by
        simpa [List.find?, hmx] using hf
      rcases List.mem_cons.mp hv with h | h
      · omega
      · exact ih hxs hf2 v h hmv

/-- C3 (counterexample): as literally stated the claim is false.  For
`m = 7`, `get_ideal_window_size` returns 12, yet `8 = 2^3 · 3^0` is a smaller
integer of the form `2^a · 3^b` that is `≥ 7` — the table only contains values
whose two exponents are both at least 1. -/
theorem c3_counterexample :
    get_ideal_window_size 7 = some 12 ∧
      (∃ a b : Nat, (8 : Nat) = 2 ^ a * 3 ^ b) ∧ 7 ≤ 8 ∧ 8 < 12 := by
  refine ⟨by decide, ⟨3, 0, by norm_num⟩, by norm_num, by norm_num⟩

/-- C3 (amended): for every `m ∈ [6, 36864]`, `get_ideal_window_size m`
returns `Ok w` with `w ≥ m`, `w = 2^a · 3^b` for exponents `a, b ≥ 1`, and no
smaller integer of that form (both exponents positive) that is `≥ m` exists;
for every `m > 36864` the lookup fails with `NotFound`. -/
theorem c3_window_size_lookup (m : Nat) :
    (6 ≤ m → m ≤ 36864 →
      ∃ w, get_ideal_window_size m = some w ∧ m ≤ w ∧ isPow23 w ∧
        ∀ v, m ≤ v → isPow23 v → w ≤ v) ∧
    (36864 < m → get_ideal_window_size m = none) := by
  constructor
  · intro _ hm2
    have hmem : (36864 : Nat) ∈ WINDOW_SIZES := by decide
    obtain ⟨w, hw⟩ : ∃ w, get_ideal_window_size m = some w := by
      rcases hfind : get_ideal_window_size m with _ | w
      · exfalso
        have := (List.find?_eq_none.mp hfind) 36864 hmem
        simp [hm2] at this
      · exact ⟨w, rfl⟩
    have hwmem : w ∈ WINDOW_SIZES := List.mem_of_find?_eq_some hw
    have hmw : m ≤ w := by
      have := List.find?_some hw
      simpa using this
    refine ⟨w, hw, hmw, ?_, ?_⟩
    · obtain ⟨a, _, b, _, ha, hb, hwp⟩ := windowSizes_isPow23 w hwmem
      exact ⟨a, b, ha, hb, hwp⟩
    · intro v hmv hvp
      by_cases hv36 : v ≤ 36864
      · exact find?_ge_min WINDOW_SIZES windowSizes_sorted hw v
          (windowSizes_complete hv36 hvp) hmv
      · exact le_trans (windowSizes_le w hwmem) (by omega)
  · intro hm
    apply List.find?_eq_none.mpr
    intro x hx
    have := windowSizes_le x hx
    simp only [decide_eq_true_eq]
    omega

/-- Witness for `c3_window_size_lookup` at `m = 100` (and the failing side at
`m = 40000` via a second application is not needed: one witness per theorem).
`get_ideal_window_size 100 = some 108`, `108 = 2^2 · 3^3`, and the theorem's
hypotheses hold at 100. -/
theorem c3_window_size_lookup_witness :
    (6 ≤ 100 ∧ 100 ≤ 36864) ∧
      (∃ w, get_ideal_window_size 100 = some w ∧ 100 ≤ w ∧ isPow23 w ∧
        ∀ v, 100 ≤ v → isPow23 v → w ≤ v) :=
  ⟨⟨by norm_num, by norm_num⟩, (c3_window_size_lookup 100).1 (by norm_num) (by norm_num)⟩

/-! ## C4: left-to-right steering formula -/

/-- C4 (counterexample): the claim's formula has the wrong sign.  For a bin
with `a_L = 1`, `a_R = 0` (all-left) the claim's value
`(a_L / (a_L + a_R)) · 2 − 1` is `+1`, but `DefaultMatrix::steer` emits `−1`
(which is what the §3 convention `−1 = all-left` requires: the code computes
`(a_L / sum) · (−2) + 1`). -/
theorem c4_counterexample :
    (DefaultMatrix.new.steer 1 0 0 0).left_to_right = -1 ∧
      ((1 : ℚ) / (1 + 0)) * 2 - 1 = 1 ∧ (-1 : ℚ) ≠ 1 := by
  refine ⟨?_, by norm_num, by norm_num⟩
  norm_num [DefaultMatrix.steer, DefaultMatrix.new, back_to_front_from_phase]

/-- C4 (amended): for every bin with `a_L, a_R ≥ 0` and `a_L + a_R > 0`,
`DefaultMatrix::steer` computes the pre-widen left-to-right value as the
*negation* of the claimed formula, i.e. `−((a_L / (a_L + a_R)) · 2 − 1)`
(so that `−1` is all-left), multiplies it by the matrix's widen factor, and
emits it clamped to `[−1, +1]`. -/
theorem c4_steer_left_to_right (m : DefaultMatrix) (la lp ra rp : ℚ)
    (hla : 0 ≤ la) (hra : 0 ≤ ra) (hsum : 0 < la + ra) :
    (m.steer la lp ra rp).left_to_right =
      max (min ((-((la / (la + ra)) * 2 - 1)) * m.widen_factor) 1) (-1) := by
  have hne : la + ra ≠ 0 := ne_of_gt hsum
  have key : (la / (la + ra)) * (-2) + 1 = -((la / (la + ra)) * 2 - 1) := by ring
  simp only [DefaultMatrix.steer, if_neg hne, key]

/-- Witness for `c4_steer_left_to_right` at `a_L = 3`, `a_R = 1` with the
default matrix (widen factor 1): the emitted value is `−1/2`. -/
theorem c4_steer_left_to_right_witness :
    ((0 : ℚ) ≤ 3 ∧ (0 : ℚ) ≤ 1 ∧ (0 : ℚ) < 3 + 1) ∧
      (DefaultMatrix.new.steer 3 0 1 0).left_to_right =
        max (min ((-(((3 : ℚ) / (3 + 1)) * 2 - 1)) * DefaultMatrix.new.widen_factor) 1)
          (-1) :=
  ⟨⟨by norm_num, by norm_num, by norm_num⟩,
    c4_steer_left_to_right DefaultMatrix.new 3 0 1 0 (by norm_num) (by norm_num)
      (by norm_num)⟩

/-! ## C7: phase-shift range -/

/-- C7 (counterexample): the result of `phase_shift` is not always in
`(−π, π]`.  With the valid left-rear input phase `−π/2`, the shifted phase is
exactly `−π`, which is outside the half-open interval. -/
theorem c7_counterexample :
    (-PI32 < -HALF_PI32 ∧ -HALF_PI32 ≤ PI32) ∧
      (DefaultMatrix.new.phase_shift 0 0 (-HALF_PI32) 0).2.2.1 = -PI32 ∧
      ¬(-PI32 < (DefaultMatrix.new.phase_shift 0 0 (-HALF_PI32) 0).2.2.1) := by
  norm_num [DefaultMatrix.phase_shift, DefaultMatrix.new, shift_in_place,
    bring_phase_in_range, HALF_PI32, TAU32, PI32]

/-- C7 (amended): for rear phases in `(−π, π]`, `DefaultMatrix::phase_shift`
leaves the two front phases unchanged and adds `left_rear_shift = −π/2` /
`right_rear_shift = +π/2` to the rear phases modulo 2π; the resulting rear
phases lie in the *closed* interval `[−π, π]` (the value `−π` is reached
exactly when the left rear phase is `−π/2`). -/
theorem c7_phase_shift (lf rf lr rr : ℚ)
    (hlr1 : -PI32 < lr) (hlr2 : lr ≤ PI32)
    (hrr1 : -PI32 < rr) (hrr2 : rr ≤ PI32) :
    (DefaultMatrix.new.phase_shift lf rf lr rr).1 = lf ∧
    (DefaultMatrix.new.phase_shift lf rf lr rr).2.1 = rf ∧
    ((DefaultMatrix.new.phase_shift lf rf lr rr).2.2.1 = lr - HALF_PI32 ∨
      (DefaultMatrix.new.phase_shift lf rf lr rr).2.2.1 = lr - HALF_PI32 + TAU32) ∧
    ((DefaultMatrix.new.phase_shift lf rf lr rr).2.2.2 = rr + HALF_PI32 ∨
      (DefaultMatrix.new.phase_shift lf rf lr rr).2.2.2 = rr + HALF_PI32 - TAU32) ∧
    (-PI32 ≤ (DefaultMatrix.new.phase_shift lf rf lr rr).2.2.1 ∧
      (DefaultMatrix.new.phase_shift lf rf lr rr).2.2.1 ≤ PI32) ∧
    (-PI32 ≤ (DefaultMatrix.new.phase_shift lf rf lr rr).2.2.2 ∧
      (DefaultMatrix.new.phase_shift lf rf lr rr).2.2.2 ≤ PI32) := by
  have hP : (0 : ℚ) < PI32 := by norm_num [PI32]
  simp only [DefaultMatrix.phase_shift, DefaultMatrix.new, shift_in_place,
    bring_phase_in_range, show TAU32 = 2 * PI32 from rfl,
    show HALF_PI32 = PI32 / 2 from rfl]
  refine ⟨trivial, trivial, ?_, ?_, ?_, ?_⟩
  · split_ifs with h1 h2
    · exfalso; linarith
    · right; ring
    · left; ring
  · split_ifs with h1 h2
    · right; ring
    · exfalso; linarith
    · left; ring
  · split_ifs with h1 h2 <;> constructor <;> linarith
  · split_ifs with h1 h2 <;> constructor <;> linarith

/-- Witness for `c7_phase_shift` at front phases 0, left rear phase `1`,
right rear phase `−1` (all within `(−π, π]`). -/
theorem c7_phase_shift_witness :
    ((-PI32 < (1 : ℚ) ∧ (1 : ℚ) ≤ PI32) ∧ (-PI32 < (-1 : ℚ) ∧ (-1 : ℚ) ≤ PI32)) ∧
      (-PI32 ≤ (DefaultMatrix.new.phase_shift 0 0 1 (-1)).2.2.1 ∧
        (DefaultMatrix.new.phase_shift 0 0 1 (-1)).2.2.1 ≤ PI32) ∧
      (-PI32 ≤ (DefaultMatrix.new.phase_shift 0 0 1 (-1)).2.2.2 ∧
        (DefaultMatrix.new.phase_shift 0 0 1 (-1)).2.2.2 ≤ PI32) := by
  have h1 : -PI32 < (1 : ℚ) ∧ (1 : ℚ) ≤ PI32 := by norm_num [PI32]
  have h2 : -PI32 < (-1 : ℚ) ∧ (-1 : ℚ) ≤ PI32 := by norm_num [PI32]
  have h := c7_phase_shift 0 0 1 (-1) h1.1 h1.2 h2.1 h2.2
  exact ⟨⟨h1, h2⟩, h.2.2.2.2.1, h.2.2.2.2.2⟩

/-! ## C5: steering ends (left-only signal) -/

/-- C5: for a bin whose right channel is zero and whose left channel carries a
tone at or above the minimum steered amplitude, the Reader's solo-spike copy
forces the phases equal, the emitted steering vector has
`left_to_right = −1` and `back_to_front` equal to the (now zero)
phase-difference contribution, and the Panner's per-bin split assigns the
bin's whole amplitude to the left front and left rear in proportions
`1 − back_to_front` and `back_to_front` (the right channels receive 0). -/
theorem c5_left_only (minAmp la lp rp : ℚ) (hmin : 0 < minAmp)
    (hla : minAmp ≤ la) :
    (read_measure_pans_bin DefaultMatrix.new minAmp la lp 0 rp).left_to_right
        = -1 ∧
    (read_measure_pans_bin DefaultMatrix.new minAmp la lp 0 rp).back_to_front
        = back_to_front_from_phase
            (solo_spike_phases minAmp la lp 0 rp).1
            (solo_spike_phases minAmp la lp 0 rp).2 ∧
    (read_measure_pans_bin DefaultMatrix.new minAmp la lp 0 rp).back_to_front
        = 0 ∧
    panner_front_rear_amplitudes la 0
        (read_measure_pans_bin DefaultMatrix.new minAmp la lp 0 rp) =
      (la * (1 - (read_measure_pans_bin DefaultMatrix.new minAmp la lp 0
          rp).back_to_front),
       0,
       la * (read_measure_pans_bin DefaultMatrix.new minAmp la lp 0
          rp).back_to_front,
       0) := by
  have hla0 : (0 : ℚ) < la := lt_of_lt_of_le hmin hla
  have hlane : la ≠ 0 := ne_of_gt hla0
  have hcopy : solo_spike_phases minAmp la lp 0 rp = (lp, lp) := by
    unfold solo_spike_phases
    rw [if_neg (by rintro ⟨h1, h2⟩; linarith), if_pos ⟨hla, hmin⟩]
  have hphase : back_to_front_from_phase lp lp = 0 := by
    have hP : (0 : ℚ) < PI32 := by norm_num [PI32]
    simp [back_to_front_from_phase, le_of_lt hP, not_lt.mpr (le_of_lt hP)]
  have hsum : la + 0 ≠ 0 := by simpa using hlane
  have hdiv : la / (la + 0) = 1 := by
    rw [add_zero, div_self hlane]
  have hltr : (read_measure_pans_bin DefaultMatrix.new minAmp la lp 0
      rp).left_to_right = -1 := by
    simp only [read_measure_pans_bin, hcopy, DefaultMatrix.steer, hphase, hsum,
      if_false, hdiv, DefaultMatrix.new]
    norm_num
  have hbf : (read_measure_pans_bin DefaultMatrix.new minAmp la lp 0
      rp).back_to_front = 0 := by
    simp only [read_measure_pans_bin, hcopy, DefaultMatrix.steer, hphase, hsum,
      if_false, hdiv, DefaultMatrix.new]
    norm_num
  refine ⟨hltr, ?_, hbf, ?_⟩
  · rw [hbf, hcopy, hphase]
  · rw [hbf]
    unfold panner_front_rear_amplitudes
    rw [hbf]
    norm_num

/-- Witness for `c5_left_only` at `minAmp = 1/100`, `a_L = 1`, `φ_L = 3`,
`φ_R = 7`. -/
theorem c5_left_only_witness :
    ((0 : ℚ) < 1/100 ∧ (1/100 : ℚ) ≤ 1) ∧
      (read_measure_pans_bin DefaultMatrix.new (1/100) 1 3 0 7).left_to_right
        = -1 ∧
      (read_measure_pans_bin DefaultMatrix.new (1/100) 1 3 0 7).back_to_front
        = 0 :=
  ⟨⟨by norm_num, by norm_num⟩,
    (c5_left_only (1/100) 1 3 7 (by norm_num) (by norm_num)).1,
    (c5_left_only (1/100) 1 3 7 (by norm_num) (by norm_num)).2.2.1⟩

/-! ## C1: the rolling average (code bug) -/

unseal Rat.add Rat.sub Rat.mul Rat.inv in
/-- C1 (evaluation at the failing input): in the run `demoRun` (window size 6,
15 samples, steering components `(c − 5)/10`), the first record handed to the
Panner & Writer is the one with counter 6, and for bin 0 (`lower = 0`,
`upper = 5`, `fraction = 1/6`) its averaged pans are
`left_to_right = 1/60` and `back_to_front = 1/15`.  The steering vectors at
queue positions `0..5` at that emission are those of the two warm-start
placeholders (both `0`) and of the records 5, 6, 7, 8
(`0, 1/10, 2/10, 3/10`), whose arithmetic mean is `1/10` in both components.
Both emitted components miss that mean by far more than `1e-4`:
`left_to_right` still holds the pre-seed value (the add/subtract loops update
only `back_to_front`), and `back_to_front` misses the contribution of queue
position `upper − 1` (the pre-seed sums the Rust range `lower..(upper - 1)`,
which stops at `upper − 2`). -/
theorem c1_rolling_average_bug :
    (demoRun.2.getD 0 default).last_sample_ctr = 6 ∧
    ((demoRun.2.getD 0 default).frequency_pans.getD 0 default).left_to_right
      = 1 / 60 ∧
    ((demoRun.2.getD 0 default).frequency_pans.getD 0 default).back_to_front
      = 1 / 15 ∧
    ((demoPans 5).getD 0 default).back_to_front = 0 ∧
    ((demoPans 6).getD 0 default).back_to_front = 1 / 10 ∧
    ((demoPans 7).getD 0 default).back_to_front = 2 / 10 ∧
    ((demoPans 8).getD 0 default).back_to_front = 3 / 10 ∧
    ((0 + 0 + 0 + 1 / 10 + 2 / 10 + 3 / 10) / 6 : ℚ) = 1 / 10 ∧
    |(1 / 15 : ℚ) - 1 / 10| > 1 / 10000 ∧
    |(1 / 60 : ℚ) - 1 / 10| > 1 / 10000 := by
  decide

/-! ## C2: output ordering (code bug) -/

unseal Rat.add Rat.sub Rat.mul Rat.inv in
/-- C2 (evaluation at the failing input): over the run `demoRun`
(`window_size = 6`, `total_samples_to_write = 15`), the absolute sample
indices written to the sink are `0,1,2,4,…,10,12,13,14`: strictly increasing
and duplicate-free, but the indices `3` (= `window_midpoint`) and `11`
(= `total_samples_to_write − window_midpoint − 1`) are never written, so only
13 of the 15 samples are produced. -/
theorem c2_output_ordering_bug :
    demoWrites = [0, 1, 2, 4, 5, 6, 7, 8, 9, 10, 12, 13, 14] ∧
    demoWrites.contains 3 = false ∧ demoWrites.contains 11 = false ∧
    demoWrites.length = demoCfg.total_samples_to_write - 2 ∧
    strictlyIncreasingCheck demoWrites = true := by
  decide

/-! ## C8: queue contiguity -/

unseal Rat.add Rat.sub Rat.mul Rat.inv in
/-- C8 (counterexample): immediately after the first-transform warm start the
queue holds counters `[0, 0, 5]` (window size 6), which is not a contiguous
increasing range — the warm-start placeholders all carry the dummy counter 0. -/
theorem c8_counterexample :
    ((runAveragerSteps demoCfg demoPans (fun _ => ()) (fun _ => ())
        (fun _ => some ()) 1).1.transformed_window_and_pans_queue.map
      (fun r => r.last_sample_ctr)) = [0, 0, 5] ∧
    contiguousCheck [0, 0, 5] = false := by
  decide

/-! ## C10: LFE / lowest-frequency CLI constraint -/

/-- C10: for every argument list whose `-low` value parses to `q > 40`
(`LFE_START`), option parsing fails when the output layout includes an LFE
channel — with the default layout (5.1) and with `-channels 5.1` — while the
same `-low` value is accepted for the 4-channel and 5-channel layouts (and is
stored in the options). -/
theorem c10_lfe_low_check (pf : String → Option ℚ) (pu : String → Option ℕ)
    (exe src dst s : String) (q : ℚ)
    (hq : pf s = some q) (h40 : LFE_START < q) :
    Options.parse pf pu [exe, src, dst, "-low", s] = none ∧
    Options.parse pf pu [exe, src, dst, "-channels", "5.1", "-low", s] = none ∧
    (∃ o, Options.parse pf pu [exe, src, dst, "-channels", "4", "-low", s]
        = some o ∧ o.low_frequency = q ∧ o.channels.low_frequency = false) ∧
    (∃ o, Options.parse pf pu [exe, src, dst, "-channels", "5", "-low", s]
        = some o ∧ o.low_frequency = q ∧ o.channels.low_frequency = false) := by
  have h40q : (40 : ℚ) < q := h40
  have hq1 : ¬ q < 1 := by linarith
  have hlfe : LFE_START < q ∧ true = true := ⟨h40, rfl⟩
  have hnlfe4 : ¬ (LFE_START < q ∧ false = true) := by
    rintro ⟨_, h⟩; cases h
  refine ⟨?_, ?_, ?_, ?_⟩
  · simp [Options.parse, parseArgsLoop, hq, hq1, h40]
  · simp [Options.parse, parseArgsLoop, hq, hq1, h40]
  · refine ⟨⟨src, dst, none, ChannelLayout.Four, false,
      ⟨true, true, false, false, true, true⟩, q, MatrixFormat.Default⟩,
      ?_, rfl, rfl⟩
    simp [Options.parse, parseArgsLoop, hq, hq1, h40]
  · refine ⟨⟨src, dst, none, ChannelLayout.Five, true,
      ⟨true, true, true, false, true, true⟩, q, MatrixFormat.Default⟩,
      ?_, rfl, rfl⟩
    simp [Options.parse, parseArgsLoop, hq, hq1, h40]

/-- Witness for `c10_lfe_low_check` with a parser that reads `"41"` as 41. -/
theorem c10_lfe_low_check_witness :
    ((fun x : String => if x = "41" then some (41 : ℚ) else none) "41"
        = some 41 ∧ LFE_START < (41 : ℚ)) ∧
    Options.parse (fun x => if x = "41" then some (41 : ℚ) else none)
      (fun _ => none) ["upmix", "in.wav", "out.wav", "-low", "41"] = none ∧
    (∃ o, Options.parse (fun x => if x = "41" then some (41 : ℚ) else none)
        (fun _ => none)
        ["upmix", "in.wav", "out.wav", "-channels", "4", "-low", "41"]
        = some o ∧ o.low_frequency = 41 ∧ o.channels.low_frequency = false) := by
  have h := c10_lfe_low_check
    (fun x : String => if x = "41" then some (41 : ℚ) else none)
    (fun _ => none) "upmix" "in.wav" "out.wav" "41" 41 (by simp)
    (by norm_num [LFE_START])
  exact ⟨⟨by simp, by norm_num [LFE_START]⟩, h.1, h.2.2.1⟩

/-! ## C6: Hermitian symmetry of the Panner's spectra -/

lemma setBin_same (f : ℕ → ℚ × ℚ) (i : ℕ) (v : ℚ × ℚ) : setBin f i v i = v := by
  simp [setBin]

lemma setBin_other (f : ℕ → ℚ × ℚ) {i j : ℕ} (v : ℚ × ℚ) (h : j ≠ i) :
    setBin f i v j = f j := by
  simp [setBin, h]

/-- What one iteration of the steering loop does to the arrays: each of the
four spectra is written at `freq_ctr` with some value and, when
`freq_ctr < window_midpoint`, at `window_size - freq_ctr` with its conjugate;
the optional center spectrum likewise. -/
lemma steer_bin_spec (cfg : UpmixerCfg) (m : DefaultMatrix)
    (tp fp : ℚ × ℚ → ℚ × ℚ) (pans : ℕ → FrequencyPans) (a : PannerArrays)
    (fc : ℕ) :
    (∃ vlf, (steer_bin cfg m tp fp pans a fc).left_front =
        if fc < cfg.window_midpoint then
          setBin (setBin a.left_front fc vlf) (cfg.window_size - fc) (conjBin vlf)
        else setBin a.left_front fc vlf) ∧
    (∃ vrf, (steer_bin cfg m tp fp pans a fc).right_front =
        if fc < cfg.window_midpoint then
          setBin (setBin a.right_front fc vrf) (cfg.window_size - fc) (conjBin vrf)
        else setBin a.right_front fc vrf) ∧
    (∃ vlr, (steer_bin cfg m tp fp pans a fc).left_rear =
        if fc < cfg.window_midpoint then
          setBin (setBin a.left_rear fc vlr) (cfg.window_size - fc) (conjBin vlr)
        else setBin a.left_rear fc vlr) ∧
    (∃ vrr, (steer_bin cfg m tp fp pans a fc).right_rear =
        if fc < cfg.window_midpoint then
          setBin (setBin a.right_rear fc vrr) (cfg.window_size - fc) (conjBin vrr)
        else setBin a.right_rear fc vrr) ∧
    (a.center = none → (steer_bin cfg m tp fp pans a fc).center = none) ∧
    (∀ c, a.center = some c → ∃ vc,
      (steer_bin cfg m tp fp pans a fc).center =
        some (if fc < cfg.window_midpoint then
          setBin (setBin c fc vc) (cfg.window_size - fc) (conjBin vc)
        else setBin c fc vc)) := by
  rcases hc : a.center with _ | c <;>
    by_cases hfc : fc < cfg.window_midpoint <;>
    refine ⟨?_, ?_, ?_, ?_, ?_, ?_⟩ <;>
    simp only [steer_bin, hc, hfc, if_true, if_false, setBin_same,
      Option.some.injEq, forall_eq', reduceCtorEq, false_implies,
      forall_false, implies_true, IsEmpty.forall_iff] <;>
    first
      | exact ⟨_, rfl⟩
      | trivial
      | (intro c0 hc0; cases hc0; exact ⟨_, rfl⟩)

/-- The symmetry invariant for the steering fold: after processing
`freq_ctr = 1, …, n`, every pair `(k, window_size - k)` with `k ≤ n`,
`k < window_midpoint` is conjugate-symmetric in all written spectra. -/
lemma steer_fold_symm (cfg : UpmixerCfg) (m : DefaultMatrix)
    (tp fp : ℚ × ℚ → ℚ × ℚ) (pans : ℕ → FrequencyPans)
    (hW : cfg.window_size = 2 * cfg.window_midpoint) :
    ∀ n, n ≤ cfg.window_midpoint → ∀ a : PannerArrays,
      ∀ k, 1 ≤ k → k ≤ n → k < cfg.window_midpoint →
      (((List.range' 1 n).foldl (steer_bin cfg m tp fp pans) a).left_front
          (cfg.window_size - k)
        = conjBin (((List.range' 1 n).foldl (steer_bin cfg m tp fp pans)
            a).left_front k)) ∧
      (((List.range' 1 n).foldl (steer_bin cfg m tp fp pans) a).right_front
          (cfg.window_size - k)
        = conjBin (((List.range' 1 n).foldl (steer_bin cfg m tp fp pans)
            a).right_front k)) ∧
      (((List.range' 1 n).foldl (steer_bin cfg m tp fp pans) a).left_rear
          (cfg.window_size - k)
        = conjBin (((List.range' 1 n).foldl (steer_bin cfg m tp fp pans)
            a).left_rear k)) ∧
      (((List.range' 1 n).foldl (steer_bin cfg m tp fp pans) a).right_rear
          (cfg.window_size - k)
        = conjBin (((List.range' 1 n).foldl (steer_bin cfg m tp fp pans)
            a).right_rear k)) ∧
      (∀ c, ((List.range' 1 n).foldl (steer_bin cfg m tp fp pans) a).center
          = some c → c (cfg.window_size - k) = conjBin (c k)) := by
  intro n
  induction n with
  | zero => intro _ a k hk1 hk0 _; omega
  | succ n ih =>
    intro hn a k hk1 hkn hkh
    have hconcat : List.range' 1 (n + 1) = List.range' 1 n ++ [1 + n] := by
      simpa using @List.range'_concat 1 1 n
    rw [hconcat, List.foldl_append]
    set b := (List.range' 1 n).foldl (steer_bin cfg m tp fp pans) a with hb
    simp only [List.foldl_cons, List.foldl_nil]
    obtain ⟨⟨vlf, hlf⟩, ⟨vrf, hrf⟩, ⟨vlr, hlr⟩, ⟨vrr, hrr⟩, hcn, hcs⟩ :=
      steer_bin_spec cfg m tp fp pans b (1 + n)
    have hn1 : 1 + n ≤ cfg.window_midpoint := by omega
    -- index facts
    have hWk : cfg.window_size - k > cfg.window_midpoint := by omega
    have hk_ne : k ≠ 1 + n ∨ k = 1 + n := by omega
    rcases Nat.lt_or_ge k (1 + n) with hklt | hkge
    · -- an old pair: the new writes do not touch `k` or `window_size - k`
      have hkn' : k ≤ n := by omega
      obtain ⟨ilf, irf, ilr, irr, icn⟩ := ih (by omega) a k hk1 hkn' hkh
      have hne1 : cfg.window_size - k ≠ 1 + n := by omega
      have hne2 : k ≠ 1 + n := by omega
      have hne3 : cfg.window_size - k ≠ cfg.window_size - (1 + n) := by omega
      have hne4 : k ≠ cfg.window_size - (1 + n) := by omega
      refine ⟨?_, ?_, ?_, ?_, ?_⟩
      · rw [hlf]; split_ifs with h
        · rw [setBin_other _ _ hne3, setBin_other _ _ hne1,
            setBin_other _ _ hne4, setBin_other _ _ hne2]; exact ilf
        · rw [setBin_other _ _ hne1, setBin_other _ _ hne2]; exact ilf
      · rw [hrf]; split_ifs with h
        · rw [setBin_other _ _ hne3, setBin_other _ _ hne1,
            setBin_other _ _ hne4, setBin_other _ _ hne2]; exact irf
        · rw [setBin_other _ _ hne1, setBin_other _ _ hne2]; exact irf
      · rw [hlr]; split_ifs with h
        · rw [setBin_other _ _ hne3, setBin_other _ _ hne1,
            setBin_other _ _ hne4, setBin_other _ _ hne2]; exact ilr
        · rw [setBin_other _ _ hne1, setBin_other _ _ hne2]; exact ilr
      · rw [hrr]; split_ifs with h
        · rw [setBin_other _ _ hne3, setBin_other _ _ hne1,
            setBin_other _ _ hne4, setBin_other _ _ hne2]; exact irr
        · rw [setBin_other _ _ hne1, setBin_other _ _ hne2]; exact irr
      · intro c hcsome
        rcases hcb : b.center with _ | c0
        · rw [hcn hcb] at hcsome; cases hcsome
        · obtain ⟨vc, hvc⟩ := hcs c0 hcb
          rw [hvc] at hcsome
          injection hcsome with hceq
          subst hceq
          split_ifs with h
          · rw [setBin_other _ _ hne3, setBin_other _ _ hne1,
              setBin_other _ _ hne4, setBin_other _ _ hne2]
            exact icn c0 hcb
          · rw [setBin_other _ _ hne1, setBin_other _ _ hne2]
            exact icn c0 hcb
    · -- the new pair `k = 1 + n`
      have hkeq : k = 1 + n := by omega
      subst hkeq
      have hmir : 1 + n < cfg.window_midpoint := hkh
      have hne5 : 1 + n ≠ cfg.window_size - (1 + n) := by omega
      refine ⟨?_, ?_, ?_, ?_, ?_⟩
      · rw [hlf, if_pos hmir, setBin_same, setBin_other _ _ hne5, setBin_same]
      · rw [hrf, if_pos hmir, setBin_same, setBin_other _ _ hne5, setBin_same]
      · rw [hlr, if_pos hmir, setBin_same, setBin_other _ _ hne5, setBin_same]
      · rw [hrr, if_pos hmir, setBin_same, setBin_other _ _ hne5, setBin_same]
      · intro c hcsome
        rcases hcb : b.center with _ | c0
        · rw [hcn hcb] at hcsome; cases hcsome
        · obtain ⟨vc, hvc⟩ := hcs c0 hcb
          rw [hvc] at hcsome
          injection hcsome with hceq
          subst hceq
          rw [if_pos hmir, setBin_same, setBin_other _ _ hne5, setBin_same]

/-- The symmetry invariant for the LFE filter fold. -/
lemma lfe_fold_symm (cfg : UpmixerCfg) (tp fp : ℚ × ℚ → ℚ × ℚ)
    (lfe_levels : ℕ → ℚ)
    (hW : cfg.window_size = 2 * cfg.window_midpoint) :
    ∀ n, n ≤ cfg.window_midpoint - 1 → ∀ arr : ℕ → ℚ × ℚ,
      ∀ k, 1 ≤ k → k ≤ n →
      ((List.range' 1 n).foldl (lfe_filter_bin cfg tp fp lfe_levels) arr)
          (cfg.window_size - k)
        = conjBin (((List.range' 1 n).foldl
            (lfe_filter_bin cfg tp fp lfe_levels) arr) k) := by
  intro n
  induction n with
  | zero => intro _ arr k hk1 hk0; omega
  | succ n ih =>
    intro hn arr k hk1 hkn
    have hconcat : List.range' 1 (n + 1) = List.range' 1 n ++ [1 + n] := by
      simpa using @List.range'_concat 1 1 n
    rw [hconcat, List.foldl_append]
    set b := (List.range' 1 n).foldl (lfe_filter_bin cfg tp fp lfe_levels) arr
      with hbdef
    simp only [List.foldl_cons, List.foldl_nil]
    obtain ⟨vc, hstep⟩ : ∃ vc, lfe_filter_bin cfg tp fp lfe_levels b (1 + n)
        = setBin (setBin b (1 + n) vc) (cfg.window_size - (1 + n)) (conjBin vc) :=
      ⟨_, rfl⟩
    rw [hstep]
    rcases Nat.lt_or_ge k (1 + n) with hklt | hkge
    · have hkn' : k ≤ n := by omega
      have hne1 : cfg.window_size - k ≠ cfg.window_size - (1 + n) := by omega
      have hne2 : cfg.window_size - k ≠ 1 + n := by omega
      have hne3 : k ≠ cfg.window_size - (1 + n) := by omega
      have hne4 : k ≠ 1 + n := by omega
      rw [setBin_other _ _ hne1, setBin_other _ _ hne2,
        setBin_other _ _ hne3, setBin_other _ _ hne4]
      exact ih (by omega) arr k hk1 hkn'
    · have hkeq : k = 1 + n := by omega
      subst hkeq
      have hne5 : 1 + n ≠ cfg.window_size - (1 + n) := by omega
      rw [setBin_same, setBin_other _ _ hne5, setBin_same]

/-- C6: after the Panner & Writer's per-bin steering loop (and the LFE
filtering step), every output spectrum — front left, front right, rear left,
rear right, the optional center, and the LFE — satisfies Hermitian symmetry:
for every bin `k ∈ [1, W/2)`, bin `W − k` is the complex conjugate of bin
`k`.  Stated for arbitrary polar-conversion functions, pans, matrix and input
spectra, since the bookkeeping establishes it regardless. -/
theorem c6_hermitian_symmetry (cfg : UpmixerCfg) (m : DefaultMatrix)
    (tp fp : ℚ × ℚ → ℚ × ℚ) (pans : ℕ → FrequencyPans) (a0 : PannerArrays)
    (lfe_levels : ℕ → ℚ) (lfe0 : ℕ → ℚ × ℚ)
    (hW : cfg.window_size = 2 * cfg.window_midpoint) (k : ℕ)
    (hk1 : 1 ≤ k) (hkh : k < cfg.window_midpoint) :
    ((panner_steer_loop cfg m tp fp pans a0).left_front (cfg.window_size - k)
      = conjBin ((panner_steer_loop cfg m tp fp pans a0).left_front k)) ∧
    ((panner_steer_loop cfg m tp fp pans a0).right_front (cfg.window_size - k)
      = conjBin ((panner_steer_loop cfg m tp fp pans a0).right_front k)) ∧
    ((panner_steer_loop cfg m tp fp pans a0).left_rear (cfg.window_size - k)
      = conjBin ((panner_steer_loop cfg m tp fp pans a0).left_rear k)) ∧
    ((panner_steer_loop cfg m tp fp pans a0).right_rear (cfg.window_size - k)
      = conjBin ((panner_steer_loop cfg m tp fp pans a0).right_rear k)) ∧
    (∀ c, (panner_steer_loop cfg m tp fp pans a0).center = some c →
      c (cfg.window_size - k) = conjBin (c k)) ∧
    ((lfe_filter_loop cfg tp fp lfe_levels lfe0) (cfg.window_size - k)
      = conjBin ((lfe_filter_loop cfg tp fp lfe_levels lfe0) k)) := by
  have hsteer := steer_fold_symm cfg m tp fp pans hW cfg.window_midpoint
    (le_refl _)
    { a0 with left_rear := setBin a0.left_rear 0 (0, 0)
              right_rear := setBin a0.right_rear 0 (0, 0) }
    k hk1 (le_of_lt hkh) hkh
  have hlfe := lfe_fold_symm cfg tp fp lfe_levels hW
    (cfg.window_midpoint - 1) (le_refl _) lfe0 k hk1 (by omega)
  exact ⟨hsteer.1, hsteer.2.1, hsteer.2.2.1, hsteer.2.2.2.1, hsteer.2.2.2.2,
    hlfe⟩

/-- Witness for `c6_hermitian_symmetry`: window size 4, identity polar
conversions, constant pans, concrete input spectra, bin `k = 1`. -/
theorem c6_hermitian_symmetry_witness :
    ((4 : ℕ) = 2 * (UpmixerCfg.mk 4 12).window_midpoint ∧ (1 : ℕ) ≤ 1 ∧
      1 < (UpmixerCfg.mk 4 12).window_midpoint) ∧
    ((panner_steer_loop (UpmixerCfg.mk 4 12) DefaultMatrix.new id id
        (fun _ => ⟨0, 0, 0⟩)
        ⟨fun i => ((i : ℚ), 1), fun i => ((i : ℚ), 2), fun i => ((i : ℚ), 3),
          fun i => ((i : ℚ), 4), some (fun i => ((i : ℚ), 5))⟩).left_front
        (4 - 1)
      = conjBin ((panner_steer_loop (UpmixerCfg.mk 4 12) DefaultMatrix.new id
          id (fun _ => ⟨0, 0, 0⟩)
          ⟨fun i => ((i : ℚ), 1), fun i => ((i : ℚ), 2), fun i => ((i : ℚ), 3),
            fun i => ((i : ℚ), 4), some (fun i => ((i : ℚ), 5))⟩).left_front
          1)) :=
  ⟨⟨rfl, le_refl 1, by decide⟩,
    ((c6_hermitian_symmetry (UpmixerCfg.mk 4 12) DefaultMatrix.new id id
      (fun _ => ⟨0, 0, 0⟩)
      ⟨fun i => ((i : ℚ), 1), fun i => ((i : ℚ), 2), fun i => ((i : ℚ), 3),
        fun i => ((i : ℚ), 4), some (fun i => ((i : ℚ), 5))⟩
      (fun _ => 1) (fun i => ((i : ℚ), 6)) rfl 1 (le_refl 1) (by decide))).1⟩

/-! ## The averager simulation: closed forms of the reachable states

Throughout, `cfg.window_size = 2 * cfg.window_midpoint`,
`3 ≤ cfg.window_midpoint` (every real window size is an even number ≥ 6) and
`cfg.window_size + cfg.window_midpoint + 2 ≤ cfg.total_samples_to_write`. -/

section Simulation

variable {α : Type} (cfg : UpmixerCfg) (pans : ℕ → List FrequencyPans)
variable (pl pr : ℕ → α) (pm : ℕ → Option α)

lemma avgQueue_length (E p L : ℕ) :
    (avgQueue cfg pans pl pr pm E p L).length = L := by
  simp [avgQueue]

lemma avgQueue_getD (E p L j : ℕ) (hj : j < L)
    (d : TransformedWindowAndPans α) :
    (avgQueue cfg pans pl pr pm E p L).getD j d
      = avgItemAt cfg pans pl pr pm E (p + j) := by
  rw [List.getD_eq_getElem _ _ (by simpa [avgQueue] using hj)]
  simp [avgQueue, List.getElem_map, List.getElem_range']

lemma avgQueue_concat (E p L : ℕ) :
    avgQueue cfg pans pl pr pm E p L ++ [avgItemAt cfg pans pl pr pm E (p + L)]
      = avgQueue cfg pans pl pr pm E p (L + 1) := by
  have h := @List.range'_concat 1 p L
  simp only [one_mul] at h
  simp [avgQueue, h]

lemma avgQueue_tail (E p L : ℕ) :
    (avgQueue cfg pans pl pr pm E p (L + 1)).tail
      = avgQueue cfg pans pl pr pm E (p + 1) L := by
  simp [avgQueue, List.range'_succ]

lemma avgQueue_zero (E p : ℕ) : avgQueue cfg pans pl pr pm E p 0 = [] := by
  simp [avgQueue]

/-- Items other than the one at the emission boundary are unchanged when the
emission count increases. -/
lemma avgItemAt_succ_E (E i : ℕ) (hi : i ≠ cfg.window_midpoint + E) :
    avgItemAt cfg pans pl pr pm (E + 1) i = avgItemAt cfg pans pl pr pm E i := by
  unfold avgItemAt
  by_cases h1 : i < cfg.window_midpoint - 1
  · simp [h1]
  · by_cases h2 : i + cfg.window_midpoint < cfg.total_samples_to_write
    · by_cases h3 : cfg.window_midpoint ≤ i ∧ i < cfg.window_midpoint + E
      · simp [h1, h2, h3, show cfg.window_midpoint ≤ i ∧
          i < cfg.window_midpoint + (E + 1) by omega]
      · simp only [if_neg h1, if_pos h2, if_neg h3]
        rw [if_neg (by omega)]
    · simp [h1, h2]

/-- The item at the emission position is an intact Reader record. -/
lemma avgItemAt_emit (p : ℕ)
    (hreal : p + cfg.window_midpoint + cfg.window_midpoint
      < cfg.total_samples_to_write) :
    avgItemAt cfg pans pl pr pm p (p + cfg.window_midpoint)
      = readerRecord pans pl pr pm
          (p + cfg.window_midpoint + cfg.window_midpoint) := by
  unfold avgItemAt
  rw [if_neg (by omega), if_pos (by omega), if_neg (by omega)]

/-- Marking the record at the emission position as drained advances the
emission count in the closed form. -/
lemma avgQueue_set_taken (p L : ℕ) (hL : cfg.window_midpoint < L)
    (hreal : p + cfg.window_midpoint + cfg.window_midpoint
      < cfg.total_samples_to_write) :
    (avgQueue cfg pans pl pr pm p p L).set cfg.window_midpoint
        (takeTransforms (avgItemAt cfg pans pl pr pm p
          (p + cfg.window_midpoint)))
      = avgQueue cfg pans pl pr pm (p + 1) p L := by
  apply List.ext_getElem
  · simp [avgQueue]
  · intro j hj1 hj2
    have hjL : j < L := by simpa [avgQueue] using hj2
    by_cases hjh : j = cfg.window_midpoint
    · subst hjh
      rw [List.getElem_set_self]
      · simp only [avgQueue, List.getElem_map, List.getElem_range', one_mul]
        rw [avgItemAt_emit cfg pans pl pr pm p hreal]
        unfold avgItemAt
        rw [if_neg (by omega), if_pos (by omega), if_pos (by omega)]
        simp [takeTransforms, readerRecord]
    · rw [List.getElem_set_ne (by omega)]
      simp only [avgQueue, List.getElem_map, List.getElem_range', one_mul]
      rw [avgItemAt_succ_E cfg pans pl pr pm p (p + j) (by omega)]

lemma addUpper_queue (s : EnqueueAndAverageState α) :
    (addUpperContribution s).transformed_window_and_pans_queue
      = s.transformed_window_and_pans_queue := rfl

lemma addUpper_next (s : EnqueueAndAverageState α) :
    (addUpperContribution s).next_last_sample_ctr_to_enqueue
      = s.next_last_sample_ctr_to_enqueue := rfl

lemma addUpper_len (s : EnqueueAndAverageState α) :
    (addUpperContribution s).pan_averages.length = s.pan_averages.length := by
  simp [addUpperContribution]

lemma subLower_queue (s : EnqueueAndAverageState α) :
    (subLowerContribution s).transformed_window_and_pans_queue
      = s.transformed_window_and_pans_queue := rfl

lemma subLower_len (s : EnqueueAndAverageState α) :
    (subLowerContribution s).pan_averages.length = s.pan_averages.length := by
  simp [subLowerContribution]

lemma avgState_queue (E p L nxt : ℕ) (A : List FrequencyPans) :
    (avgState cfg pans pl pr pm E p L nxt A).transformed_window_and_pans_queue
      = avgQueue cfg pans pl pr pm E p L := rfl

lemma avgState_pans (E p L nxt : ℕ) (A : List FrequencyPans) :
    (avgState cfg pans pl pr pm E p L nxt A).pan_averages = A := rfl

lemma avgState_next (E p L nxt : ℕ) (A : List FrequencyPans) :
    (avgState cfg pans pl pr pm E p L nxt A).next_last_sample_ctr_to_enqueue
      = nxt := rfl

/-- One non-final iteration of the averaging loop in closed form. -/
lemma averageLoop_iter_no_last
    (hWh : cfg.window_size = 2 * cfg.window_midpoint)
    (h3 : 3 ≤ cfg.window_midpoint)
    (fuel p L nxt : ℕ) (A : List FrequencyPans) (hA : A ≠ [])
    (hL : cfg.window_size ≤ L)
    (hreal : p + cfg.window_size < cfg.total_samples_to_write)
    (hnl : p + cfg.window_size ≠ cfg.total_samples_to_write - 1) :
    ∃ (A2 : List FrequencyPans) (em : TransformedWindowAndPans α),
      averageLoop cfg (fuel + 1) (avgState cfg pans pl pr pm p p L nxt A)
        = ((averageLoop cfg fuel
             (avgState cfg pans pl pr pm (p + 1) (p + 1) (L - 1) nxt A2)).1,
           em :: (averageLoop cfg fuel
             (avgState cfg pans pl pr pm (p + 1) (p + 1) (L - 1) nxt A2)).2) ∧
      GoodEmission cfg em ∧ A2.length = A.length ∧ A2 ≠ [] := by
  have hhW : cfg.window_midpoint < cfg.window_size := by omega
  have hhL : cfg.window_midpoint < L := by omega
  have hreal2 : p + cfg.window_midpoint + cfg.window_midpoint
      < cfg.total_samples_to_write := by omega
  have hLsucc : L = (L - 1) + 1 := by omega
  have hctr : ¬ (p + cfg.window_midpoint + cfg.window_midpoint
      = cfg.total_samples_to_write - 1) := by omega
  have hset : (avgQueue cfg pans pl pr pm p p L).set cfg.window_midpoint
      ⟨p + cfg.window_midpoint + cfg.window_midpoint, none, none, none,
        pans (p + cfg.window_midpoint + cfg.window_midpoint)⟩
      = avgQueue cfg pans pl pr pm (p + 1) p L := by
    have hone := avgQueue_set_taken cfg pans pl pr pm p L hhL hreal2
    rw [avgItemAt_emit cfg pans pl pr pm p hreal2] at hone
    simpa [takeTransforms, readerRecord] using hone
  simp only [averageLoop, avgState_queue, avgQueue_length, if_pos hL,
    addUpper_queue, avgState_queue,
    avgQueue_getD cfg pans pl pr pm p p L cfg.window_midpoint hhL,
    avgItemAt_emit cfg pans pl pr pm p hreal2, readerRecord, if_neg hctr,
    subLower_queue, takeTransforms]
  rw [hset]
  rw [hLsucc, avgQueue_tail cfg pans pl pr pm (p + 1) p (L - 1)]
  refine ⟨_, _, rfl, ?_, ?_, ?_⟩
  · simp only [GoodEmission]
    refine ⟨by simp, by simp, by omega, by omega⟩
  · simp [subLowerContribution, addUpperContribution, avgState_pans]
  · intro hnil
    have hl := congrArg List.length hnil
    simp only [subLowerContribution, addUpperContribution, avgState_pans,
      List.length_mapIdx, List.length_nil] at hl
    exact hA (List.length_eq_zero.mp hl)

lemma averageLoop_stop (fuel : ℕ) (s : EnqueueAndAverageState α)
    (h : s.transformed_window_and_pans_queue.length < cfg.window_size) :
    averageLoop cfg fuel s = (s, []) := by
  cases fuel with
  | zero => rfl
  | succ fuel => simp only [averageLoop, if_neg (not_le.mpr h)]

/-- The final iteration of the averaging loop: the record at the emission
position carries the last counter, so the queue is cleared. -/
lemma averageLoop_iter_last
    (hWh : cfg.window_size = 2 * cfg.window_midpoint)
    (h3 : 3 ≤ cfg.window_midpoint)
    (fuel p L nxt : ℕ) (A : List FrequencyPans) (hA : A ≠ [])
    (hL : cfg.window_size ≤ L)
    (hN1 : 1 ≤ cfg.total_samples_to_write)
    (hlast : p + cfg.window_size = cfg.total_samples_to_write - 1) :
    ∃ (A1 : List FrequencyPans) (em : TransformedWindowAndPans α),
      averageLoop cfg (fuel + 1) (avgState cfg pans pl pr pm p p L nxt A)
        = (avgState cfg pans pl pr pm 0 0 0 nxt A1, [em]) ∧
      GoodEmission cfg em := by
  have hhL : cfg.window_midpoint < L := by omega
  have hreal2 : p + cfg.window_midpoint + cfg.window_midpoint
      < cfg.total_samples_to_write := by omega
  have hctr : p + cfg.window_midpoint + cfg.window_midpoint
      = cfg.total_samples_to_write - 1 := by omega
  simp only [averageLoop, avgState_queue, avgQueue_length, if_pos hL,
    addUpper_queue, avgState_queue,
    avgQueue_getD cfg pans pl pr pm p p L cfg.window_midpoint hhL,
    avgItemAt_emit cfg pans pl pr pm p hreal2, readerRecord, if_pos hctr,
    takeTransforms]
  refine ⟨_, _, rfl, ?_⟩
  simp only [GoodEmission]
  refine ⟨by simp, by simp, by omega, by omega⟩

/-- Running the averaging loop over a queue that never reaches the final
record: one emission per iteration, all of them intact Reader records. -/
lemma averageLoop_run_no_last
    (hWh : cfg.window_size = 2 * cfg.window_midpoint)
    (h3 : 3 ≤ cfg.window_midpoint) :
    ∀ d p nxt (A : List FrequencyPans), A ≠ [] →
      p + cfg.window_size + d + 2 ≤ cfg.total_samples_to_write →
      ∃ (A2 : List FrequencyPans) (out : List (TransformedWindowAndPans α)),
        averageLoop cfg (cfg.window_size + d + 1)
            (avgState cfg pans pl pr pm p p (cfg.window_size + d) nxt A)
          = (avgState cfg pans pl pr pm (p + d + 1) (p + d + 1)
              (cfg.window_size - 1) nxt A2, out) ∧
        (∀ r ∈ out, GoodEmission cfg r) ∧ A2.length = A.length ∧ A2 ≠ [] := by
  intro d
  induction d with
  | zero =>
    intro p nxt A hA hbound
    obtain ⟨A2, em, heq, hgood, hlen, hne⟩ := averageLoop_iter_no_last cfg pans
      pl pr pm hWh h3 (cfg.window_size + 0) p (cfg.window_size + 0) nxt A hA
      (by omega) (by omega) (by omega)
    rw [heq]
    rw [averageLoop_stop cfg (cfg.window_size + 0)
      (avgState cfg pans pl pr pm (p + 1) (p + 1) (cfg.window_size + 0 - 1)
        nxt A2)
      (by simp [avgState_queue, avgQueue_length]; omega)]
    exact ⟨A2, [em], by simp, by simpa using hgood, hlen, hne⟩
  | succ d ih =>
    intro p nxt A hA hbound
    obtain ⟨A2, em, heq, hgood, hlen, hne⟩ := averageLoop_iter_no_last cfg pans
      pl pr pm hWh h3 (cfg.window_size + d + 1) p (cfg.window_size + (d + 1))
      nxt A hA (by omega) (by omega) (by omega)
    have hfe : cfg.window_size + (d + 1) + 1 = cfg.window_size + d + 1 + 1 := by
      omega
    rw [hfe, heq]
    have hL1 : cfg.window_size + (d + 1) - 1 = cfg.window_size + d := by omega
    rw [hL1]
    obtain ⟨A3, out, heq2, hgood2, hlen2, hne2⟩ := ih (p + 1) nxt A2 hne
      (by omega)
    have hp : p + 1 + d + 1 = p + (d + 1) + 1 := by omega
    rw [hp] at heq2
    rw [heq2]
    refine ⟨A3, em :: out, rfl, ?_, by omega, hne2⟩
    intro r hr
    rcases List.mem_cons.mp hr with h | h
    · exact h ▸ hgood
    · exact hgood2 r h

/-- Running the averaging loop over a queue that contains every remaining
item, ending with the record carrying the last counter: emissions continue
up to it and the queue is cleared. -/
lemma averageLoop_run_to_last
    (hWh : cfg.window_size = 2 * cfg.window_midpoint)
    (h3 : 3 ≤ cfg.window_midpoint) :
    ∀ d p nxt (A : List FrequencyPans), A ≠ [] →
      p + (cfg.window_size + 1 + d) = cfg.total_samples_to_write →
      ∃ (A2 : List FrequencyPans) (out : List (TransformedWindowAndPans α)),
        averageLoop cfg (cfg.window_size + 1 + d + 1)
            (avgState cfg pans pl pr pm p p (cfg.window_size + 1 + d) nxt A)
          = (avgState cfg pans pl pr pm 0 0 0 nxt A2, out) ∧
        (∀ r ∈ out, GoodEmission cfg r) := by
  intro d
  induction d with
  | zero =>
    intro p nxt A hA hall
    obtain ⟨A1, em, heq, hgood⟩ := averageLoop_iter_last cfg pans pl pr pm hWh
      h3 (cfg.window_size + 1) p (cfg.window_size + 1 + 0) nxt A hA (by omega)
      (by omega) (by omega)
    rw [heq]
    refine ⟨A1, [em], rfl, ?_⟩
    intro r hr
    rcases List.mem_cons.mp hr with h | h
    · exact h ▸ hgood
    · cases h
  | succ d ih =>
    intro p nxt A hA hall
    obtain ⟨A2, em, heq, hgood, hlen, hne⟩ := averageLoop_iter_no_last cfg pans
      pl pr pm hWh h3 (cfg.window_size + 1 + d + 1) p
      (cfg.window_size + 1 + (d + 1)) nxt A hA (by omega) (by omega) (by omega)
    have hfe : cfg.window_size + 1 + (d + 1) + 1
        = cfg.window_size + 1 + d + 1 + 1 := by omega
    rw [hfe, heq]
    have hL1 : cfg.window_size + 1 + (d + 1) - 1 = cfg.window_size + 1 + d := by
      omega
    rw [hL1]
    obtain ⟨A3, out, heq2, hgood2⟩ := ih (p + 1) nxt A2 hne (by omega)
    rw [heq2]
    refine ⟨A3, em :: out, rfl, ?_⟩
    intro r hr
    rcases List.mem_cons.mp hr with h | h
    · exact h ▸ hgood
    · exact hgood2 r h

/-- The warm start fills the queue with `window_midpoint - 1` dummies before
the first record: that is exactly the closed-form queue of length
`window_midpoint`. -/
lemma warm_queue_closed
    (hWh : cfg.window_size = 2 * cfg.window_midpoint)
    (h3 : 3 ≤ cfg.window_midpoint)
    (hN : cfg.window_size + cfg.window_midpoint + 2
      ≤ cfg.total_samples_to_write) :
    List.replicate (cfg.window_midpoint - 1)
        (⟨0, none, none, none, pans (cfg.window_size - 1)⟩ :
          TransformedWindowAndPans α)
      ++ [readerRecord pans pl pr pm (cfg.window_size - 1)]
      = avgQueue cfg pans pl pr pm 0 0 cfg.window_midpoint := by
  apply List.ext_getElem
  · simp [avgQueue]
    omega
  · intro j hj1 hj2
    have hjh : j < cfg.window_midpoint := by simpa [avgQueue] using hj2
    simp only [avgQueue, List.getElem_map, List.getElem_range', one_mul,
      Nat.zero_add]
    by_cases hjd : j < cfg.window_midpoint - 1
    · rw [List.getElem_append_left (by simpa using hjd)]
      simp only [List.getElem_replicate]
      unfold avgItemAt
      rw [if_pos hjd]
    · have hjeq : j = cfg.window_midpoint - 1 := by omega
      rw [List.getElem_append_right (by simpa using hjd)]
      simp only [List.length_replicate]
      unfold avgItemAt
      rw [if_neg hjd, if_pos (by omega), if_neg (by omega)]
      have : j - (cfg.window_midpoint - 1) = 0 := by omega
      simp only [this, List.getElem_cons_zero]
      have hctr : j + cfg.window_midpoint = cfg.window_size - 1 := by omega
      rw [hctr]

/-- The tail padding pushed while processing the record with the last counter
is exactly the closed-form continuation of the queue. -/
lemma tail_push_closed
    (hWh : cfg.window_size = 2 * cfg.window_midpoint)
    (h3 : 3 ≤ cfg.window_midpoint)
    (p : ℕ)
    (hp : p + cfg.window_size + cfg.window_midpoint
      = cfg.total_samples_to_write) :
    avgQueue cfg pans pl pr pm p p (cfg.window_size - 1)
      ++ (List.range (cfg.window_midpoint + 1)).map (fun j =>
          if j = 0 then
            readerRecord pans pl pr pm (cfg.total_samples_to_write - 1)
          else
            (⟨(readerRecord pans pl pr pm
                (cfg.total_samples_to_write - 1)).last_sample_ctr + j,
              none, none, none,
              (readerRecord pans pl pr pm
                (cfg.total_samples_to_write - 1)).frequency_pans⟩ :
              TransformedWindowAndPans α))
      = avgQueue cfg pans pl pr pm p p
          (cfg.window_size + cfg.window_midpoint) := by
  apply List.ext_getElem
  · simp [avgQueue]
    omega
  · intro j hj1 hj2
    have hjL : j < cfg.window_size + cfg.window_midpoint := by
      simpa [avgQueue] using hj2
    simp only [avgQueue, List.getElem_map, List.getElem_range', one_mul]
    by_cases hjq : j < cfg.window_size - 1
    · rw [List.getElem_append_left (by simpa [avgQueue] using hjq)]
      simp only [avgQueue, List.getElem_map, List.getElem_range', one_mul]
    · rw [List.getElem_append_right (by simpa [avgQueue] using hjq)]
      simp only [avgQueue, List.length_map, List.length_range',
        List.getElem_map, List.getElem_range]
      set j2 := j - (cfg.window_size - 1) with hj2def
      by_cases hj0 : j2 = 0
      · have hje : j = cfg.window_size - 1 := by omega
        rw [if_pos hj0]
        unfold avgItemAt
        rw [if_neg (by omega), if_pos (by omega), if_neg (by omega)]
        have hctr : p + j + cfg.window_midpoint
            = cfg.total_samples_to_write - 1 := by omega
        rw [hctr]
      · rw [if_neg hj0]
        unfold avgItemAt
        rw [if_neg (by omega), if_neg (by omega)]
        simp only [readerRecord]
        have hctr : cfg.total_samples_to_write - 1 + j2
            = p + j + cfg.window_midpoint := by omega
        rw [hctr]

/-- First step: processing the Reader record with counter `window_size - 1`
performs the warm start and emits nothing. -/
lemma step_first
    (hWh : cfg.window_size = 2 * cfg.window_midpoint)
    (h3 : 3 ≤ cfg.window_midpoint)
    (hN : cfg.window_size + cfg.window_midpoint + 2
      ≤ cfg.total_samples_to_write) :
    enqueueAndAverageStep cfg (PanningAverager.new α cfg.window_size)
        (readerRecord pans pl pr pm (cfg.window_size - 1))
      = (avgState cfg pans pl pr pm 0 0 cfg.window_midpoint cfg.window_size
          [], []) := by
  unfold enqueueAndAverageStep
  simp only [PanningAverager.new]
  rw [if_neg (show ¬(cfg.window_size - 1 = cfg.total_samples_to_write - 1)
        by omega),
    if_neg (show ¬(cfg.window_size - 1
        = cfg.window_size + cfg.window_midpoint) by omega),
    if_pos (by rfl)]
  simp only [if_true, List.length_nil, Nat.sub_zero, List.nil_append,
    readerRecord]
  have hq := warm_queue_closed cfg pans pl pr pm hWh h3 hN
  simp only [readerRecord] at hq
  rw [hq]
  have hn : cfg.window_size - 1 + 1 = cfg.window_size := by omega
  rw [hn]
  rfl

/-- A quiet step: before the averages are pre-seeded, each record is simply
appended. -/
lemma step_quiet
    (hWh : cfg.window_size = 2 * cfg.window_midpoint)
    (h3 : 3 ≤ cfg.window_midpoint)
    (L c : ℕ)
    (hc1 : c ≠ cfg.window_size - 1)
    (hc2 : c ≠ cfg.total_samples_to_write - 1)
    (hc3 : c ≠ cfg.window_size + cfg.window_midpoint)
    (hLh : cfg.window_midpoint - 1 ≤ L)
    (hLc : L + cfg.window_midpoint = c)
    (hcN : c < cfg.total_samples_to_write) :
    enqueueAndAverageStep cfg (avgState cfg pans pl pr pm 0 0 L c [])
        (readerRecord pans pl pr pm c)
      = (avgState cfg pans pl pr pm 0 0 (L + 1) (c + 1) [], []) := by
  unfold enqueueAndAverageStep
  simp only [avgState_pans, avgState_queue, avgState_next]
  rw [if_neg hc1, if_neg hc2, if_neg hc3]
  have hitem : avgItemAt cfg pans pl pr pm 0 (0 + L)
      = readerRecord pans pl pr pm c := by
    unfold avgItemAt
    rw [if_neg (by omega), if_pos (by omega), if_neg (by omega)]
    have : 0 + L + cfg.window_midpoint = c := by omega
    rw [this]
  have hq := avgQueue_concat cfg pans pl pr pm 0 0 L
  rw [hitem] at hq
  simp only [List.append_nil]
  rw [hq]
  rw [if_pos (by rfl)]
  rfl

lemma preSeed_isEmpty (h3 : 3 ≤ cfg.window_midpoint)
    (s : EnqueueAndAverageState α) :
    (preSeedAverages cfg s).isEmpty = false := by
  unfold preSeedAverages
  cases hh : (List.range cfg.window_midpoint) with
  | nil =>
    exfalso
    have hlen := congrArg List.length hh
    simp at hlen
    omega
  | cons a t => simp [hh]

lemma preSeed_ne_nil (h3 : 3 ≤ cfg.window_midpoint)
    (s : EnqueueAndAverageState α) : preSeedAverages cfg s ≠ [] := by
  intro h
  have he := preSeed_isEmpty cfg h3 s
  rw [h] at he
  simp at he

/-- The pre-seed step: processing the Reader record with counter
`window_size + window_midpoint` fills `pan_averages` and triggers the first
two emissions. -/
lemma step_preseed
    (hWh : cfg.window_size = 2 * cfg.window_midpoint)
    (h3 : 3 ≤ cfg.window_midpoint)
    (hN : cfg.window_size + cfg.window_midpoint + 2
      ≤ cfg.total_samples_to_write) :
    ∃ (A2 : List FrequencyPans) (out : List (TransformedWindowAndPans α)),
      enqueueAndAverageStep cfg
          (avgState cfg pans pl pr pm 0 0 cfg.window_size
            (cfg.window_size + cfg.window_midpoint) [])
          (readerRecord pans pl pr pm
            (cfg.window_size + cfg.window_midpoint))
        = (avgState cfg pans pl pr pm 2 2 (cfg.window_size - 1)
            (cfg.window_size + cfg.window_midpoint + 1) A2, out) ∧
      (∀ r ∈ out, GoodEmission cfg r) ∧ A2 ≠ [] := by
  unfold enqueueAndAverageStep
  simp only [avgState_pans, avgState_queue, avgState_next, if_true]
  rw [if_neg (show ¬(cfg.window_size + cfg.window_midpoint
        = cfg.window_size - 1) by omega),
    if_neg (show ¬(cfg.window_size + cfg.window_midpoint
        = cfg.total_samples_to_write - 1) by omega)]
  simp only [List.append_nil]
  have hitem : avgItemAt cfg pans pl pr pm 0 (0 + cfg.window_size)
      = readerRecord pans pl pr pm
          (cfg.window_size + cfg.window_midpoint) := by
    unfold avgItemAt
    rw [if_neg (by omega), if_pos (by omega), if_neg (by omega)]
    have h0 : 0 + cfg.window_size + cfg.window_midpoint
        = cfg.window_size + cfg.window_midpoint := by omega
    rw [h0]
  have hq := avgQueue_concat cfg pans pl pr pm 0 0 cfg.window_size
  rw [hitem] at hq
  rw [hq]
  simp only [preSeed_isEmpty cfg h3, Bool.false_eq_true, if_false,
    avgQueue_length]
  obtain ⟨A2, out, heq, hgood, hlen, hne⟩ :=
    averageLoop_run_no_last cfg pans pl pr pm hWh h3 1 0
      (cfg.window_size + cfg.window_midpoint + 1)
      (preSeedAverages cfg (avgState cfg pans pl pr pm 0 0
        (cfg.window_size + 1) (cfg.window_size + cfg.window_midpoint) []))
      (preSeed_ne_nil cfg h3 _) (by omega)
  refine ⟨A2, out, ?_, hgood, hne⟩
  rw [show (0 : ℕ) + 1 + 1 = 2 from rfl] at heq
  exact heq

/-- A steady-state step: one record in, the queue window slides by one, one
averaged record out. -/
lemma step_steady
    (hWh : cfg.window_size = 2 * cfg.window_midpoint)
    (h3 : 3 ≤ cfg.window_midpoint)
    (p c : ℕ) (A : List FrequencyPans) (hA : A ≠ [])
    (hc : c + 1 = p + cfg.window_size + cfg.window_midpoint)
    (hclow : cfg.window_size + cfg.window_midpoint + 1 ≤ c)
    (hchigh : c + 2 ≤ cfg.total_samples_to_write) :
    ∃ (A2 : List FrequencyPans) (out : List (TransformedWindowAndPans α)),
      enqueueAndAverageStep cfg
          (avgState cfg pans pl pr pm p p (cfg.window_size - 1) c A)
          (readerRecord pans pl pr pm c)
        = (avgState cfg pans pl pr pm (p + 1) (p + 1) (cfg.window_size - 1)
            (c + 1) A2, out) ∧
      (∀ r ∈ out, GoodEmission cfg r) ∧ A2 ≠ [] := by
  unfold enqueueAndAverageStep
  simp only [avgState_pans, avgState_queue, avgState_next]
  rw [if_neg (show ¬(c = cfg.window_size - 1) by omega),
    if_neg (show ¬(c = cfg.total_samples_to_write - 1) by omega),
    if_neg (show ¬(c = cfg.window_size + cfg.window_midpoint) by omega)]
  simp only [List.append_nil]
  have hitem : avgItemAt cfg pans pl pr pm p (p + (cfg.window_size - 1))
      = readerRecord pans pl pr pm c := by
    unfold avgItemAt
    rw [if_neg (by omega), if_pos (by omega), if_neg (by omega)]
    have h0 : p + (cfg.window_size - 1) + cfg.window_midpoint = c := by omega
    rw [h0]
  have hq := avgQueue_concat cfg pans pl pr pm p p (cfg.window_size - 1)
  rw [hitem] at hq
  have hW1 : cfg.window_size - 1 + 1 = cfg.window_size := by omega
  rw [hW1] at hq
  rw [hq]
  have hAe : A.isEmpty = false := by
    cases A with
    | nil => exact absurd rfl hA
    | cons a t => rfl
  simp only [hAe, Bool.false_eq_true, if_false, avgQueue_length]
  obtain ⟨A2, out, heq, hgood, hlen, hne⟩ :=
    averageLoop_run_no_last cfg pans pl pr pm hWh h3 0 p (c + 1) A hA
      (by omega)
  refine ⟨A2, out, ?_, hgood, hne⟩
  simp only [Nat.add_zero] at heq
  exact heq

/-- The final step: processing the Reader record with the last counter pads
the queue, drains it completely, and every emission is an intact Reader
record. -/
lemma step_last
    (hWh : cfg.window_size = 2 * cfg.window_midpoint)
    (h3 : 3 ≤ cfg.window_midpoint)
    (hN : cfg.window_size + cfg.window_midpoint + 2
      ≤ cfg.total_samples_to_write)
    (p : ℕ) (A : List FrequencyPans) (hA : A ≠ [])
    (hp : p + cfg.window_size + cfg.window_midpoint
      = cfg.total_samples_to_write) :
    ∃ (A2 : List FrequencyPans) (out : List (TransformedWindowAndPans α)),
      enqueueAndAverageStep cfg
          (avgState cfg pans pl pr pm p p (cfg.window_size - 1)
            (cfg.total_samples_to_write - 1) A)
          (readerRecord pans pl pr pm (cfg.total_samples_to_write - 1))
        = (avgState cfg pans pl pr pm 0 0 0 cfg.total_samples_to_write A2,
            out) ∧
      (∀ r ∈ out, GoodEmission cfg r) := by
  unfold enqueueAndAverageStep
  simp only [avgState_pans, avgState_queue, avgState_next, if_true]
  rw [if_neg (show ¬(cfg.total_samples_to_write - 1
        = cfg.window_size - 1) by omega),
    if_neg (show ¬(cfg.total_samples_to_write - 1
        = cfg.window_size + cfg.window_midpoint) by omega)]
  simp only [List.append_nil]
  rw [tail_push_closed cfg pans pl pr pm hWh h3 p hp]
  have hAe : A.isEmpty = false := by
    cases A with
    | nil => exact absurd rfl hA
    | cons a t => rfl
  have h2 : cfg.total_samples_to_write - 1 + 1
      = cfg.total_samples_to_write := by omega
  simp only [hAe, Bool.false_eq_true, if_false, avgQueue_length, h2]
  obtain ⟨A2, out, heq, hgood⟩ :=
    averageLoop_run_to_last cfg pans pl pr pm hWh h3
      (cfg.window_midpoint - 1) p cfg.total_samples_to_write A hA (by omega)
  refine ⟨A2, out, ?_, hgood⟩
  have h1 : cfg.window_size + 1 + (cfg.window_midpoint - 1)
      = cfg.window_size + cfg.window_midpoint := by omega
  rw [h1] at heq
  exact heq

/-- `feedRecords` over a concatenation: feed the first list, then the second
from the resulting state. -/
lemma feedRecords_append (s : EnqueueAndAverageState α)
    (rs1 rs2 : List (TransformedWindowAndPans α)) :
    feedRecords cfg s (rs1 ++ rs2)
      = ((feedRecords cfg (feedRecords cfg s rs1).1 rs2).1,
         (feedRecords cfg s rs1).2
           ++ (feedRecords cfg (feedRecords cfg s rs1).1 rs2).2) := by
  induction rs1 generalizing s with
  | nil => simp [feedRecords]
  | cons r rs ih =>
    simp only [List.cons_append, feedRecords, List.append_eq, ih,
      List.append_assoc]

/-- The quiet warm-up phase: each of the records with counters
`window_size + k, …` is appended to the queue without any averaging. -/
lemma run_quiet_aux
    (hWh : cfg.window_size = 2 * cfg.window_midpoint)
    (h3 : 3 ≤ cfg.window_midpoint)
    (hN : cfg.window_size + cfg.window_midpoint + 2
      ≤ cfg.total_samples_to_write) :
    ∀ n k, k + n ≤ cfg.window_midpoint →
      feedRecords cfg
          (avgState cfg pans pl pr pm 0 0 (cfg.window_midpoint + k)
            (cfg.window_size + k) [])
          ((List.range' (cfg.window_size + k) n).map
            (readerRecord pans pl pr pm))
        = (avgState cfg pans pl pr pm 0 0 (cfg.window_midpoint + (k + n))
            (cfg.window_size + (k + n)) [], []) := by
  intro n
  induction n with
  | zero => intro k hk; rfl
  | succ m ih =>
    intro k hk
    rw [List.range'_succ, List.map_cons]
    simp only [feedRecords]
    have hstep := step_quiet cfg pans pl pr pm hWh h3
      (cfg.window_midpoint + k) (cfg.window_size + k)
      (by omega) (by omega) (by omega) (by omega) (by omega) (by omega)
    rw [hstep]
    have hih := ih (k + 1) (by omega)
    rw [show cfg.window_midpoint + (k + 1) = cfg.window_midpoint + k + 1
        from by omega,
      show cfg.window_size + (k + 1) = cfg.window_size + k + 1
        from by omega,
      show (k + 1) + m = k + (m + 1) from by omega] at hih
    simp only [hih, List.nil_append]

/-- The steady phase: each record between the pre-seed and the final record
slides the window by one and emits one intact averaged record. -/
lemma run_steady_aux
    (hWh : cfg.window_size = 2 * cfg.window_midpoint)
    (h3 : 3 ≤ cfg.window_midpoint) :
    ∀ n p c (A : List FrequencyPans), A ≠ [] →
      c + 1 = p + cfg.window_size + cfg.window_midpoint →
      cfg.window_size + cfg.window_midpoint + 1 ≤ c →
      c + n + 1 ≤ cfg.total_samples_to_write →
      ∃ (A2 : List FrequencyPans) (out : List (TransformedWindowAndPans α)),
        feedRecords cfg
            (avgState cfg pans pl pr pm p p (cfg.window_size - 1) c A)
            ((List.range' c n).map (readerRecord pans pl pr pm))
          = (avgState cfg pans pl pr pm (p + n) (p + n) (cfg.window_size - 1)
              (c + n) A2, out) ∧
        (∀ r ∈ out, GoodEmission cfg r) ∧ A2 ≠ [] := by
  intro n
  induction n with
  | zero =>
    intro p c A hA hc hlow hhigh
    refine ⟨A, [], rfl, ?_, hA⟩
    intro r hr
    cases hr
  | succ m ih =>
    intro p c A hA hc hlow hhigh
    rw [List.range'_succ, List.map_cons]
    simp only [feedRecords]
    obtain ⟨A1, out1, hstep, hgood1, hne1⟩ :=
      step_steady cfg pans pl pr pm hWh h3 p c A hA hc hlow (by omega)
    rw [hstep]
    obtain ⟨A2, out2, hrun, hgood2, hne2⟩ :=
      ih (p + 1) (c + 1) A1 hne1 (by omega) (by omega) (by omega)
    rw [show p + 1 + m = p + (m + 1) from by omega,
      show c + 1 + m = c + (m + 1) from by omega] at hrun
    refine ⟨A2, out1 ++ out2, ?_, ?_, hne2⟩
    · simp only [hrun]
    · intro r hr
      rcases List.mem_append.mp hr with h | h
      · exact hgood1 r h
      · exact hgood2 r h

/-- After any prefix of a sequential run, the averager's state is one of the
closed forms `avgState`, and everything emitted so far is an intact Reader
record. -/
lemma runAveragerSteps_shape
    (hWh : cfg.window_size = 2 * cfg.window_midpoint)
    (h3 : 3 ≤ cfg.window_midpoint)
    (hN : cfg.window_size + cfg.window_midpoint + 2
      ≤ cfg.total_samples_to_write)
    (n : ℕ) (hn : n + cfg.window_size ≤ cfg.total_samples_to_write + 1) :
    ∃ (E p L nxt : ℕ) (A : List FrequencyPans),
      (runAveragerSteps cfg pans pl pr pm n).1
        = avgState cfg pans pl pr pm E p L nxt A ∧
      ∀ r ∈ (runAveragerSteps cfg pans pl pr pm n).2,
        GoodEmission cfg r := by
  rcases n with _ | k
  · exact ⟨0, 0, 0, cfg.window_size - 1, [], rfl, by intro r hr; cases hr⟩
  by_cases hk : k ≤ cfg.window_midpoint
  · -- warm start plus a partial quiet phase, no emissions yet
    have hq := run_quiet_aux cfg pans pl pr pm hWh h3 hN k 0 (by omega)
    simp only [Nat.add_zero, Nat.zero_add] at hq
    have hrun : runAveragerSteps cfg pans pl pr pm (k + 1)
        = (avgState cfg pans pl pr pm 0 0 (cfg.window_midpoint + k)
            (cfg.window_size + k) [], []) := by
      simp only [runAveragerSteps, List.range'_succ,
        show cfg.window_size - 1 + 1 = cfg.window_size from by omega,
        List.map_cons, feedRecords]
      rw [step_first cfg pans pl pr pm hWh h3 hN]
      simp only [hq, List.nil_append]
    exact ⟨0, 0, cfg.window_midpoint + k, cfg.window_size + k, [],
      by rw [hrun], by rw [hrun]; intro r hr; cases hr⟩
  -- at least the pre-seed step has happened
  obtain ⟨j, rfl⟩ : ∃ j, k = cfg.window_midpoint + 1 + j :=
    ⟨k - cfg.window_midpoint - 1, by omega⟩
  have hq := run_quiet_aux cfg pans pl pr pm hWh h3 hN cfg.window_midpoint 0
    (by omega)
  simp only [Nat.add_zero, Nat.zero_add] at hq
  rw [show cfg.window_midpoint + cfg.window_midpoint = cfg.window_size
      from by omega] at hq
  obtain ⟨A2, out1, hps, hgood1, hne1⟩ :=
    step_preseed cfg pans pl pr pm hWh h3 hN
  by_cases hj : cfg.window_size + cfg.window_midpoint + j + 2
      ≤ cfg.total_samples_to_write
  · -- the final record has not been fed yet: pre-seed plus j steady steps
    obtain ⟨A3, out2, hst, hgood2, hne2⟩ :=
      run_steady_aux cfg pans pl pr pm hWh h3 j 2
        (cfg.window_size + cfg.window_midpoint + 1) A2 hne1 (by omega)
        (by omega) (by omega)
    have hrun : runAveragerSteps cfg pans pl pr pm
          (cfg.window_midpoint + 1 + j + 1)
        = (avgState cfg pans pl pr pm (2 + j) (2 + j) (cfg.window_size - 1)
            (cfg.window_size + cfg.window_midpoint + 1 + j) A3,
           out1 ++ out2) := by
      simp only [runAveragerSteps, List.range'_succ,
        show cfg.window_size - 1 + 1 = cfg.window_size from by omega]
      rw [show cfg.window_midpoint + 1 + j = (1 + j) + cfg.window_midpoint
          from by omega,
        ← List.range'_append_1 cfg.window_size cfg.window_midpoint (1 + j),
        show (1 : ℕ) + j = j + 1 from Nat.add_comm 1 j,
        List.range'_succ]
      simp only [List.map_cons, List.map_append, feedRecords]
      rw [step_first cfg pans pl pr pm hWh h3 hN]
      simp only [feedRecords_append cfg, hq, feedRecords]
      rw [hps]
      simp only [hst, List.nil_append]
    refine ⟨2 + j, 2 + j, cfg.window_size - 1,
      cfg.window_size + cfg.window_midpoint + 1 + j, A3,
      by rw [hrun], ?_⟩
    intro r hr
    rw [hrun] at hr
    rcases List.mem_append.mp hr with h | h
    · exact hgood1 r h
    · exact hgood2 r h
  · -- the last record is fed at this very step
    have hje : cfg.window_size + cfg.window_midpoint + j + 1
        = cfg.total_samples_to_write := by omega
    obtain ⟨i, rfl⟩ : ∃ i, j = i + 1 := ⟨j - 1, by omega⟩
    obtain ⟨A3, out2, hst, hgood2, hne2⟩ :=
      run_steady_aux cfg pans pl pr pm hWh h3 i 2
        (cfg.window_size + cfg.window_midpoint + 1) A2 hne1 (by omega)
        (by omega) (by omega)
    rw [show cfg.window_size + cfg.window_midpoint + 1 + i
        = cfg.total_samples_to_write - 1 from by omega] at hst
    obtain ⟨A4, out3, hls, hgood3⟩ :=
      step_last cfg pans pl pr pm hWh h3 hN (2 + i) A3 hne2 (by omega)
    have hrun : runAveragerSteps cfg pans pl pr pm
          (cfg.window_midpoint + 1 + (i + 1) + 1)
        = (avgState cfg pans pl pr pm 0 0 0 cfg.total_samples_to_write A4,
           out1 ++ (out2 ++ out3)) := by
      simp only [runAveragerSteps, List.range'_succ,
        show cfg.window_size - 1 + 1 = cfg.window_size from by omega]
      rw [show cfg.window_midpoint + 1 + (i + 1)
            = (1 + (i + 1)) + cfg.window_midpoint from by omega,
        ← List.range'_append_1 cfg.window_size cfg.window_midpoint
          (1 + (i + 1)),
        show (1 : ℕ) + (i + 1) = (i + 1) + 1 from Nat.add_comm 1 (i + 1),
        List.range'_succ,
        List.range'_concat (cfg.window_size + cfg.window_midpoint + 1) i]
      simp only [one_mul]
      rw [show cfg.window_size + cfg.window_midpoint + 1 + i
          = cfg.total_samples_to_write - 1 from by omega]
      simp only [List.map_cons, List.map_append, feedRecords]
      rw [step_first cfg pans pl pr pm hWh h3 hN]
      simp only [feedRecords_append cfg, hq, feedRecords]
      rw [hps]
      simp only [hst]
      rw [hls]
      simp only [List.nil_append, List.append_nil, List.append_assoc]
    refine ⟨0, 0, 0, cfg.total_samples_to_write, A4, by rw [hrun], ?_⟩
    intro r hr
    rw [hrun] at hr
    rcases List.mem_append.mp hr with h | h
    · exact hgood1 r h
    · rcases List.mem_append.mp h with h2 | h2
      · exact hgood2 r h2
      · exact hgood3 r h2

/-- The counter held by the `i`-th conceptual item: `0` for a warm-start
placeholder, `i + window_midpoint` for everything else. -/
lemma avgItemAt_ctr (E i : ℕ) :
    (avgItemAt cfg pans pl pr pm E i).last_sample_ctr
      = if i < cfg.window_midpoint - 1 then 0
        else i + cfg.window_midpoint := by
  unfold avgItemAt
  by_cases h1 : i < cfg.window_midpoint - 1
  · simp [h1]
  · by_cases h2 : i + cfg.window_midpoint < cfg.total_samples_to_write
    · by_cases h3 : cfg.window_midpoint ≤ i ∧ i < cfg.window_midpoint + E
      · simp [h1, h2, h3]
      · simp [h1, h2, h3, readerRecord]
    · simp [h1, h2]

/-- The counters of any closed-form queue: a block of zero placeholders
followed by a contiguous increasing range. -/
lemma avgQueue_ctr_shape (E p L : ℕ) :
    ∃ k a m,
      (avgQueue cfg pans pl pr pm E p L).map (fun r => r.last_sample_ctr)
        = List.replicate k 0 ++ List.range' a m := by
  refine ⟨min L (cfg.window_midpoint - 1 - p),
    max p (cfg.window_midpoint - 1) + cfg.window_midpoint,
    L - min L (cfg.window_midpoint - 1 - p), ?_⟩
  apply List.ext_getElem
  · simp only [avgQueue, List.map_map, List.length_map, List.length_range',
      List.length_append, List.length_replicate]
    omega
  · intro j hj1 hj2
    have hjL : j < L := by simpa [avgQueue] using hj1
    simp only [avgQueue, List.map_map, List.getElem_map, List.getElem_range',
      one_mul, Function.comp_apply]
    rw [avgItemAt_ctr cfg pans pl pr pm E (p + j)]
    by_cases hz : j < min L (cfg.window_midpoint - 1 - p)
    · rw [List.getElem_append_left
        (by simp only [List.length_replicate]; omega)]
      rw [List.getElem_replicate]
      rw [if_pos (by omega)]
    · rw [List.getElem_append_right
        (by simp only [List.length_replicate]; omega)]
      simp only [List.length_replicate, List.getElem_range', one_mul]
      rw [if_neg (by omega)]
      omega

/-- **C9** (confirmed): in a sequential run in which the Reader supplies every
record with `Some` left and right transforms, every record the averager hands
to the Panner & Writer also carries `Some` left and right transforms — the
warm-start and tail-padding placeholder records never reach the panner's
queue, so the abort branch `Transform expected, got a placeholder instead` is
unreachable. -/
theorem c9_no_placeholder
    (hWh : cfg.window_size = 2 * cfg.window_midpoint)
    (h3 : 3 ≤ cfg.window_midpoint)
    (hN : cfg.window_size + cfg.window_midpoint + 2
      ≤ cfg.total_samples_to_write) :
    ∀ r ∈ (runAverager cfg pans pl pr pm).2,
      r.left_transformed.isSome ∧ r.right_transformed.isSome := by
  obtain ⟨E, p, L, nxt, A, hstate, hgood⟩ :=
    runAveragerSteps_shape cfg pans pl pr pm hWh h3 hN
      (cfg.total_samples_to_write - (cfg.window_size - 1)) (by omega)
  intro r hr
  have hgr := hgood r hr
  exact ⟨hgr.1, hgr.2.1⟩

/-- **C8** (amended): after any prefix of a sequential run, the counters in
the averager's queue form a block of zero-counter warm-start placeholders
followed by a contiguous increasing range — contiguity holds only past the
placeholder block, not over the whole queue. -/
theorem c8_queue_counters
    (hWh : cfg.window_size = 2 * cfg.window_midpoint)
    (h3 : 3 ≤ cfg.window_midpoint)
    (hN : cfg.window_size + cfg.window_midpoint + 2
      ≤ cfg.total_samples_to_write)
    (n : ℕ) (hn : n + cfg.window_size ≤ cfg.total_samples_to_write + 1) :
    ∃ k a m,
      ((runAveragerSteps cfg pans pl pr pm
          n).1.transformed_window_and_pans_queue).map
          (fun r => r.last_sample_ctr)
        = List.replicate k 0 ++ List.range' a m := by
  obtain ⟨E, p, L, nxt, A, hstate, hgood2⟩ :=
    runAveragerSteps_shape cfg pans pl pr pm hWh h3 hN n hn
  rw [hstate, avgState_queue]
  exact avgQueue_ctr_shape cfg pans pl pr pm E p L

end Simulation

/-- Witness for `c9_no_placeholder`: the demonstration run (window size 6,
15 samples). -/
theorem c9_no_placeholder_witness :
    (demoCfg.window_size = 2 * demoCfg.window_midpoint ∧
      3 ≤ demoCfg.window_midpoint ∧
      demoCfg.window_size + demoCfg.window_midpoint + 2
        ≤ demoCfg.total_samples_to_write) ∧
    ∀ r ∈ (runAverager demoCfg demoPans (fun _ => ()) (fun _ => ())
        (fun _ => some ())).2,
      r.left_transformed.isSome ∧ r.right_transformed.isSome :=
  ⟨⟨by decide, by decide, by decide⟩,
    c9_no_placeholder demoCfg demoPans (fun _ => ()) (fun _ => ())
      (fun _ => some ()) (by decide) (by decide) (by decide)⟩

/-- Witness for `c8_queue_counters`: the demonstration run after 5 records
(window size 6, 15 samples). -/
theorem c8_queue_counters_witness :
    (demoCfg.window_size = 2 * demoCfg.window_midpoint ∧
      3 ≤ demoCfg.window_midpoint ∧
      demoCfg.window_size + demoCfg.window_midpoint + 2
        ≤ demoCfg.total_samples_to_write ∧
      5 + demoCfg.window_size ≤ demoCfg.total_samples_to_write + 1) ∧
    ∃ k a m,
      ((runAveragerSteps demoCfg demoPans (fun _ => ()) (fun _ => ())
          (fun _ => some ()) 5).1.transformed_window_and_pans_queue).map
          (fun r => r.last_sample_ctr)
        = List.replicate k 0 ++ List.range' a m :=
  ⟨⟨by decide, by decide, by decide, by decide⟩,
    c8_queue_counters demoCfg demoPans (fun _ => ()) (fun _ => ())
      (fun _ => some ()) (by decide) (by decide) (by decide) 5 (by decide)⟩

end SoftMatrix
